import Mathlib

set_option maxRecDepth 8000

/-!
Shallow embedding of the extraction pipeline of `src/invoice_Agent.py`
(functions `normalize_date`, `portal_date_format`, `normalize_amount`,
`localize_amount_eur`, `parse_cliente_from_lines`, `analyze_invoice_regex`,
`merge_ai_and_regex`) together with theorems settling the frozen claims.

Modelling conventions.
* Python strings are Lean `String`s / `List Char`; the embedding is faithful
  for ASCII text plus the character '€' (the only non-ASCII character the
  source inspects).  Python's `str.strip`, `str.lower`, `str.upper`,
  `str.isdigit` are modelled on that character range.
* Python `None`-able values are `Option`s; Python truthiness of an optional
  string (`if x:`) is `pyTruthy` (false for `None` and for `""`).
* CPython `float(str)` followed by `f"{num:.2f}"` is modelled exactly over
  explicit integer fractions (`PyRat`): the decimal literal is parsed to its
  exact rational value (with CPython's sign / underscore / exponent /
  inf / nan syntax), values at or beyond the IEEE-754 double overflow
  threshold `2^1024 - 2^970` become infinities, and formatting rounds
  half-to-even at two decimals.  This agrees with CPython on every value
  whose decimal expansion needs at most 15 significant digits (the binary
  rounding of `float` can differ only beyond that precision or at decimal
  ties such as `2.675`); the universal theorems below carry the
  corresponding size bounds so that they are also true of the running code.
* Python regexes are hand-compiled to backtracking matchers that mirror the
  exact pattern texts of the source, with Python's leftmost preference,
  greedy/lazy quantifiers and word-boundary semantics.
-/

/-- Characters stripped by Python `str.strip()` (ASCII whitespace). -/
def pyWs (c : Char) : Bool :=
  c == ' ' || c == '\t' || c == '\n' || c == '\r' || c == Char.ofNat 11 || c == Char.ofNat 12

/-- `str.strip()` on a character list. -/
def pyStripList (cs : List Char) : List Char :=
  ((cs.dropWhile pyWs).reverse.dropWhile pyWs).reverse

/-- `str.strip()`. -/
def pyStrip (s : String) : String := ⟨pyStripList s.toList⟩

/-- `str.lower()` (ASCII). -/
def pyLower (s : String) : String := ⟨s.toList.map Char.toLower⟩

/-- `str.upper()` (ASCII). -/
def pyUpper (s : String) : String := ⟨s.toList.map Char.toUpper⟩

/-- Substring containment, `needle in hay` in Python. -/
def hasSubList (needle : List Char) : List Char → Bool
  | [] => needle.isEmpty
  | c :: rest => needle.isPrefixOf (c :: rest) || hasSubList needle rest

/-- `needle in hay` on strings. -/
def pyContains (hay needle : String) : Bool := hasSubList needle.toList hay.toList

/-- Python truthiness of an optional string: `None` and `""` are falsy. -/
def pyTruthy : Option String → Bool
  | none => false
  | some s => !s.isEmpty

/-- Numeric value of an ASCII digit character. -/
def digitVal (c : Char) : ℕ := c.toNat - 48

/-- Value of a big-endian ASCII digit string. -/
def digitsVal (cs : List Char) : ℕ := cs.foldl (fun a c => 10 * a + digitVal c) 0

/-- Big-endian decimal digits of `n` (empty for `0`), with enough fuel;
structural recursion on the fuel so that it evaluates by kernel reduction. -/
def natDecimalGo : ℕ → ℕ → List Char
  | 0, _ => []
  | fuel + 1, n =>
    if n = 0 then [] else natDecimalGo fuel (n / 10) ++ [Char.ofNat (48 + n % 10)]

/-- Canonical decimal rendering of a natural number (no leading zeros). -/
def natDecimal (n : ℕ) : List Char := if n = 0 then ['0'] else natDecimalGo n n

/-- Two-digit zero-padded rendering (for `n < 100`). -/
def pad2 (n : ℕ) : List Char := [Char.ofNat (48 + n / 10), Char.ofNat (48 + n % 10)]

/-- Four-digit zero-padded rendering (for `n < 10000`). -/
def pad4 (n : ℕ) : List Char :=
  [Char.ofNat (48 + n / 1000 % 10), Char.ofNat (48 + n / 100 % 10),
   Char.ofNat (48 + n / 10 % 10), Char.ofNat (48 + n % 10)]

/-- An explicit (not necessarily reduced) fraction with positive denominator,
used to carry the exact value of a parsed decimal literal. -/
structure PyRat where
  num : ℤ
  den : ℤ

/-- The IEEE-754 double overflow threshold `2^1024 - 2^970` (decimal values
of at least this magnitude convert to an infinity under round-half-even);
spelled as a literal so that it evaluates without deep recursion, and proved
equal to `2^1024 - 2^970` in `ovNat_eq` below. -/
def ovNat : ℕ := 179769313486231580793728971405303415079934132710037826936173778980444968292764750946649017977587207096330286416692887910946555547851940402630657488671505820681908902000708383676273854845817711531764475730270069855571366959622842914819860834936475292719074168444365510704342711559699508093042880177904174497792

/-- Result of CPython `float(str)`: a finite exact value, an infinity, or nan. -/
inductive PyF where
  | fin (q : PyRat)
  | pinf
  | ninf
  | nan

/-- Classify a finite decimal value, sending overflowing magnitudes to `±inf`
(`den` is positive for every fraction built by the parser). -/
def mkFin (q : PyRat) : PyF :=
  if (ovNat : ℤ) * q.den ≤ q.num then PyF.pinf
  else if q.num ≤ -((ovNat : ℤ) * q.den) then PyF.ninf
  else PyF.fin q

/-- Digit-run scanner of CPython's float grammar: digits with single
underscores strictly between digits.  Accumulates value and digit count,
returning the unconsumed rest (which starts at the first character that
cannot extend the run). -/
def parseDigitsUGo (acc k : ℕ) : List Char → ℕ × ℕ × List Char
  | [] => (acc, k, [])
  | c :: rest =>
    if c.isDigit then parseDigitsUGo (10 * acc + digitVal c) (k + 1) rest
    else if c = '_' then
      match rest with
      | d :: rest2 =>
        if d.isDigit then parseDigitsUGo (10 * acc + digitVal d) (k + 1) rest2
        else (acc, k, c :: rest)
      | [] => (acc, k, c :: rest)
    else (acc, k, c :: rest)

/-- A digit run (`digit (underscore? digit)*`): value, digit count, rest. -/
def parseDigitsU : List Char → Option (ℕ × ℕ × List Char)
  | c :: rest => if c.isDigit then some (parseDigitsUGo (digitVal c) 1 rest) else none
  | [] => none

/-- The mantissa part of CPython's float grammar
(`digits [. digits?] | . digits`), as an exact fraction. -/
def parseMantissa (cs : List Char) : Option (PyRat × List Char) :=
  match cs with
  | [] => none
  | c :: rest =>
    if c = '.' then
      match parseDigitsU rest with
      | some (n, k, r) => some (⟨(n : ℤ), ((10 ^ k : ℕ) : ℤ)⟩, r)
      | none => none
    else
      match parseDigitsU (c :: rest) with
      | some (n1, _, r1) =>
        match r1 with
        | [] => some (⟨(n1 : ℤ), 1⟩, [])
        | c2 :: r2 =>
          if c2 = '.' then
            match parseDigitsU r2 with
            | some (n2, k2, r3) =>
              some (⟨((n1 * 10 ^ k2 + n2 : ℕ) : ℤ), ((10 ^ k2 : ℕ) : ℤ)⟩, r3)
            | none => some (⟨(n1 : ℤ), 1⟩, r2)
          else some (⟨(n1 : ℤ), 1⟩, c2 :: r2)
      | none => none

/-- The optional exponent part (`(e|E) sign? digits`). -/
def parseExp (cs : List Char) : Option (ℤ × List Char) :=
  match cs with
  | c :: rest =>
    if c == 'e' || c == 'E' then
      match rest with
      | '+' :: r2 => (parseDigitsU r2).map fun x => ((x.1 : ℤ), x.2.2)
      | '-' :: r2 => (parseDigitsU r2).map fun x => (-(x.1 : ℤ), x.2.2)
      | _ => (parseDigitsU rest).map fun x => ((x.1 : ℤ), x.2.2)
    else none
  | [] => none

/-- Scale a fraction by `10 ^ e`. -/
def mulPow10 (q : PyRat) (e : ℤ) : PyRat :=
  if 0 ≤ e then ⟨q.num * ((10 ^ e.toNat : ℕ) : ℤ), q.den⟩
  else ⟨q.num, q.den * ((10 ^ (-e).toNat : ℕ) : ℤ)⟩

/-- Negate a fraction. -/
def pyRatNeg (q : PyRat) : PyRat := ⟨-q.num, q.den⟩

/-- CPython `float(str)` on an already-stripped string: sign, then
`inf`/`infinity`/`nan` (case-insensitive) or mantissa with optional exponent;
the whole string must be consumed.  Returns `none` where CPython raises
`ValueError`. -/
def pyFloatVal (cs : List Char) : Option PyF :=
  let signed : Bool × List Char :=
    match cs with
    | [] => (false, [])
    | c :: r => if c = '+' then (false, r) else if c = '-' then (true, r) else (false, c :: r)
  let neg := signed.1
  let body := signed.2
  let low := body.map Char.toLower
  if low = "inf".toList || low = "infinity".toList then
    some (if neg then PyF.ninf else PyF.pinf)
  else if low = "nan".toList then some PyF.nan
  else
    match parseMantissa body with
    | some (m, r1) =>
      match parseExp r1 with
      | some (e, r2) =>
        if r2 = [] then some (mkFin (mulPow10 (if neg then pyRatNeg m else m) e)) else none
      | none => if r1 = [] then some (mkFin (if neg then pyRatNeg m else m)) else none
    | none => none

/-- Round a nonnegative fraction (positive denominator) half-to-even to an
integer: floor, then adjust by comparing twice the remainder with the
denominator. -/
def qRoundHE (q : PyRat) : ℤ :=
  let f := Int.fdiv q.num q.den
  let rem2 := 2 * (q.num - f * q.den)
  if rem2 < q.den then f
  else if q.den < rem2 then f + 1
  else if f % 2 = 0 then f else f + 1

/-- CPython `f-string` formatting `f"{num:.2f}"`. -/
def pyFormat2 : PyF → String
  | PyF.nan => "nan"
  | PyF.pinf => "inf"
  | PyF.ninf => "-inf"
  | PyF.fin q =>
    let m : ℕ := (qRoundHE ⟨100 * ((q.num.natAbs : ℕ) : ℤ), q.den⟩).toNat
    (if q.num < 0 then "-" else "") ++ ⟨natDecimal (m / 100)⟩ ++ "." ++ ⟨pad2 (m % 100)⟩

/-- `normalize_amount` of `invoice_Agent.py` (lines 76-109): strip, remove
spaces; if a comma or dot is present, remove every dot, turn every comma into
a dot, and parse-and-format via float; if the string is pure digits, the last
two digits are cents when the length exceeds two; otherwise `None`. -/
def normalizeAmount (val : Option String) : Option String :=
  match val with
  | none => none
  | some v =>
    let s0 := pyStripList v.toList
    if s0.isEmpty then none
    else
      let s := s0.filter fun c => !(c == ' ')
      if s.contains ',' || s.contains '.' then
        let t := (s.filter fun c => !(c == '.')).map fun c => if c == ',' then '.' else c
        match pyFloatVal t with
        | some f => some (pyFormat2 f)
        | none => none
      else if !s.isEmpty && s.all Char.isDigit then
        if s.length ≤ 2 then
          match pyFloatVal s with
          | some f => some (pyFormat2 f)
          | none => none
        else
          match pyFloatVal (s.take (s.length - 2) ++ '.' :: s.drop (s.length - 2)) with
          | some f => some (pyFormat2 f)
          | none => none
      else none

/-- `localize_amount_eur` of `invoice_Agent.py` (lines 112-126): when the
upper-cased currency contains `EUR`, `EURO` or `€`, replace every dot of the
amount with a comma; otherwise return the stripped amount unchanged. -/
def localizeAmountEur (amount currency : Option String) : Option String :=
  match amount with
  | none => none
  | some a =>
    let s := pyStrip a
    if s.isEmpty then none
    else
      let curr := pyUpper (currency.getD "")
      if pyContains curr "EUR" || pyContains curr "EURO" || pyContains curr "€" then
        some ⟨s.toList.map fun c => if c == '.' then ',' else c⟩
      else some s

/-- A parsed calendar date. -/
structure PDate where
  year : ℕ
  month : ℕ
  day : ℕ

/-- Value of a two-digit token. -/
def twoDigitNum (c1 c2 : Char) : ℕ := 10 * digitVal c1 + digitVal c2

/-- A nonzero ASCII digit (`[1-9]`). -/
def isDigit19 (c : Char) : Bool := c.isDigit && !(c == '0')

/-- Candidate matches of CPython strptime's `%d` token
(regex `3[01]|[12]\d|0[1-9]|[1-9]`), in the regex's preference order. -/
def dayCands : List Char → List (ℕ × List Char)
  | c1 :: c2 :: rest =>
    (if (c1 = '3' ∧ (c2 = '0' ∨ c2 = '1')) ∨ ((c1 = '1' ∨ c1 = '2') ∧ c2.isDigit)
        ∨ (c1 = '0' ∧ isDigit19 c2) then
      [(twoDigitNum c1 c2, rest)]
     else []) ++
    (if isDigit19 c1 then [(digitVal c1, c2 :: rest)] else [])
  | [c1] => if isDigit19 c1 then [(digitVal c1, [])] else []
  | [] => []

/-- Candidate matches of CPython strptime's `%m` token
(regex `1[0-2]|0[1-9]|[1-9]`), in the regex's preference order. -/
def monthCands : List Char → List (ℕ × List Char)
  | c1 :: c2 :: rest =>
    (if (c1 = '1' ∧ (c2 = '0' ∨ c2 = '1' ∨ c2 = '2')) ∨ (c1 = '0' ∧ isDigit19 c2) then
      [(twoDigitNum c1 c2, rest)]
     else []) ++
    (if isDigit19 c1 then [(digitVal c1, c2 :: rest)] else [])
  | [c1] => if isDigit19 c1 then [(digitVal c1, [])] else []
  | [] => []

/-- CPython strptime's `%Y` token: exactly four digits. -/
def year4 : List Char → Option (ℕ × List Char)
  | c1 :: c2 :: c3 :: c4 :: rest =>
    if c1.isDigit ∧ c2.isDigit ∧ c3.isDigit ∧ c4.isDigit then
      some (digitsVal [c1, c2, c3, c4], rest)
    else none
  | _ => none

/-- CPython strptime's `%y` token: exactly two digits, with the 1969/2068
century pivot (`00`-`68` map to `20xx`, `69`-`99` to `19xx`). -/
def year2 : List Char → Option (ℕ × List Char)
  | c1 :: c2 :: rest =>
    if c1.isDigit ∧ c2.isDigit then
      some ((if twoDigitNum c1 c2 ≤ 68 then 2000 + twoDigitNum c1 c2
             else 1900 + twoDigitNum c1 c2), rest)
    else none
  | _ => none

/-- Gregorian leap year. -/
def isLeap (y : ℕ) : Bool := y % 4 = 0 ∧ (y % 100 ≠ 0 ∨ y % 400 = 0)

/-- Length of a month. -/
def daysInMonth (y m : ℕ) : ℕ :=
  if m = 2 then (if isLeap y then 29 else 28)
  else if m = 4 ∨ m = 6 ∨ m = 9 ∨ m = 11 then 30 else 31

/-- The `datetime` constructor's validation (the token grammar already
guarantees `1 ≤ d`, `1 ≤ m ≤ 12` and `y ≤ 9999`). -/
def validDate (y m d : ℕ) : Bool := 1 ≤ y ∧ d ≤ daysInMonth y m

/-- First full regex match of a `%d sep %m sep year` format, in backtracking
preference order; the whole string must be consumed. -/
def matchDMY (sep : Char) (yearLen2 : Bool) (cs : List Char) : Option (ℕ × ℕ × ℕ) :=
  (dayCands cs).findSome? fun dc =>
    match dc.2 with
    | c :: r1 =>
      if c = sep then
        (monthCands r1).findSome? fun mc =>
          match mc.2 with
          | c2 :: r2 =>
            if c2 = sep then
              match (if yearLen2 then year2 r2 else year4 r2) with
              | some (y, []) => some (y, mc.1, dc.1)
              | _ => none
            else none
          | [] => none
      else none
    | [] => none

/-- First full regex match of the `%Y-%m-%d` format. -/
def matchYMD (cs : List Char) : Option (ℕ × ℕ × ℕ) :=
  match year4 cs with
  | some (y, c :: r1) =>
    if c = '-' then
      (monthCands r1).findSome? fun mc =>
        match mc.2 with
        | c2 :: r2 =>
          if c2 = '-' then
            (dayCands r2).findSome? fun dc =>
              if dc.2 = [] then some (y, mc.1, dc.1) else none
          else none
        | [] => none
    else none
  | _ => none

/-- `datetime.strptime` for the five formats used by the source, indexed
`0 ↦ %d/%m/%Y`, `1 ↦ %d-%m-%Y`, `2 ↦ %Y-%m-%d`, `3 ↦ %d/%m/%y`,
`4 ↦ %d-%m-%y`: the committed regex match is validated by the `datetime`
constructor, and an invalid date fails the format (no regex re-try). -/
def strptimeFmt (fmt : ℕ) (cs : List Char) : Option PDate :=
  match
    (match fmt with
     | 0 => matchDMY '/' false cs
     | 1 => matchDMY '-' false cs
     | 2 => matchYMD cs
     | 3 => matchDMY '/' true cs
     | _ => matchDMY '-' true cs) with
  | some (y, m, d) => if validDate y m d then some ⟨y, m, d⟩ else none
  | none => none

/-- `dt.strftime("%Y-%m-%d")` (zero-padded; the embedding is used at years
at or above 1000, where padding is irrelevant). -/
def renderISO (d : PDate) : String :=
  ⟨pad4 d.year ++ '-' :: (pad2 d.month ++ '-' :: pad2 d.day)⟩

/-- The format order tried by `normalize_date`. -/
def normalizeDateFormats : List ℕ := [0, 1, 2, 3, 4]

/-- `normalize_date` of `invoice_Agent.py` (lines 38-56): `None` and `""` give
`None`; otherwise the stripped string is tried against the five formats in
order, the first that parses is rendered as `YYYY-MM-DD`, and if none parses
the stripped string itself is returned. -/
def normalizeDate (dateStr : Option String) : Option String :=
  match dateStr with
  | none => none
  | some s =>
    if s.isEmpty then none
    else
      let t := pyStripList s.toList
      match normalizeDateFormats.findSome? (fun f => strptimeFmt f t) with
      | some d => some (renderISO d)
      | none => some ⟨t⟩

/-- `portal_date_format` of `invoice_Agent.py` (lines 59-73): same fallback
policy with formats `%Y-%m-%d`, `%d/%m/%Y`, `%d-%m-%Y` and output
`DD/MM/YYYY`. -/
def portalDateFormat (dateStr : Option String) : Option String :=
  match dateStr with
  | none => none
  | some s =>
    if s.isEmpty then none
    else
      let t := pyStripList s.toList
      match [2, 0, 1].findSome? (fun f => strptimeFmt f t) with
      | some d => some ⟨pad2 d.day ++ '/' :: (pad2 d.month ++ '/' :: pad4 d.year)⟩
      | none => some ⟨t⟩

/-- A regex `\s` character (ASCII). -/
def isWsRe (c : Char) : Bool :=
  c == ' ' || c == '\t' || c == '\n' || c == '\r' || c == Char.ofNat 11 || c == Char.ofNat 12

/-- A regex word character `\w` (ASCII). -/
def isWordChar (c : Char) : Bool := c.isAlphanum || c == '_'

/-- Word boundary `\b` between two adjacent positions (either may be the
edge of the string). -/
def boundaryB (a b : Option Char) : Bool :=
  (match a with | some c => isWordChar c | none => false) !=
  (match b with | some c => isWordChar c | none => false)

/-- Case-insensitive literal match (the pattern is given lowercase);
deterministic, returns the rest on success. -/
def litCIK : List Char → List Char → Option (List Char)
  | [], rest => some rest
  | l :: ls, c :: rest => if c.toLower = l then litCIK ls rest else none
  | _ :: _, [] => none

/-- Backtracking helper: try the continuation after dropping `i`, `i-1`, …, 0
characters (longest first — a greedy character-class star). -/
def tryDropsFrom (cs : List Char) : ℕ → (List Char → Option α) → Option α
  | 0, k => k cs
  | i + 1, k => (k (cs.drop (i + 1))).orElse fun _ => tryDropsFrom cs i k

/-- Greedy `p*` over a character class, in continuation-passing style. -/
def starClsG (p : Char → Bool) (cs : List Char) (k : List Char → Option α) : Option α :=
  tryDropsFrom cs (cs.takeWhile p).length k

/-- Backtracking helper for `p+`: drops `i`, …, 1 characters. -/
def tryDropsPlus (cs : List Char) : ℕ → (List Char → Option α) → Option α
  | 0, _ => none
  | i + 1, k => (k (cs.drop (i + 1))).orElse fun _ => tryDropsPlus cs i k

/-- Greedy `p+` over a character class, in continuation-passing style. -/
def plusClsG (p : Char → Bool) (cs : List Char) (k : List Char → Option α) : Option α :=
  tryDropsPlus cs (cs.takeWhile p).length k

/-- Greedy optional character class `p?`, in continuation-passing style. -/
def optClsG (p : Char → Bool) (cs : List Char) (k : List Char → Option α) : Option α :=
  match cs with
  | c :: rest => if p c then (k rest).orElse fun _ => k (c :: rest) else k (c :: rest)
  | [] => k []

/-- Greedy optional case-insensitive literal, in continuation-passing style. -/
def optLitCI (lit : List Char) (cs : List Char) (k : List Char → Option α) : Option α :=
  match litCIK lit cs with
  | some rest => (k rest).orElse fun _ => k cs
  | none => k cs

/-- One token of a hand-compiled literal pattern: a (lowercase) character,
a `\s` class character, or an optional character (used only where the
following pattern character differs from it, so greedy matching without
backtracking is faithful). -/
inductive PTok where
  | ch (c : Char)
  | ws
  | opt (c : Char)

/-- All-literal token list of a lowercase pattern fragment. -/
def strToks (s : String) : List PTok := s.toList.map PTok.ch

/-- Match a token list (case-insensitively) at the head of the input,
tracking the last consumed character for trailing word boundaries. -/
def matchToks (last : Option Char) : List PTok → List Char → Option (Option Char × List Char)
  | [], cs => some (last, cs)
  | PTok.ch c :: ts, x :: cs => if x.toLower = c then matchToks (some x) ts cs else none
  | PTok.ws :: ts, x :: cs => if isWsRe x then matchToks (some x) ts cs else none
  | PTok.opt c :: ts, x :: cs =>
    if x.toLower = c then matchToks (some x) ts cs else matchToks last ts (x :: cs)
  | PTok.opt _ :: ts, [] => matchToks last ts []
  | _ :: _, [] => none

/-- A searchable word pattern: optional leading and trailing `\b`. -/
structure WPat where
  pre : Bool
  toks : List PTok
  post : Bool

/-- Does the pattern match at the current position (whose previous character
is `prev`)? -/
def matchPatAt (p : WPat) (prev : Option Char) (cs : List Char) : Bool :=
  (!p.pre || boundaryB prev cs.head?) &&
  (match matchToks prev p.toks cs with
   | some (last, rest) => !p.post || boundaryB last rest.head?
   | none => false)

/-- `re.search` for an alternation of word patterns: does any pattern match
at any position? -/
def scanPatsGo (pats : List WPat) : Option Char → List Char → Bool
  | prev, [] => pats.any fun p => matchPatAt p prev []
  | prev, c :: rest =>
    (pats.any fun p => matchPatAt p prev (c :: rest)) || scanPatsGo pats (some c) rest

/-- `re.search` from the start of a string. -/
def scanPats (pats : List WPat) (cs : List Char) : Bool := scanPatsGo pats none cs

/-- A plain word with `\b` on both sides. -/
def wordPat (s : String) : WPat := ⟨true, strToks s, true⟩

/-- A plain substring pattern (no boundaries). -/
def plainPat (toks : List PTok) : WPat := ⟨false, toks, false⟩

/-- `\bfattura\b|\binvoice\b` (the customer mislabel guard). -/
def fatturaInvoiceSearch (cs : List Char) : Bool :=
  scanPats [wordPat "fattura", wordPat "invoice"] cs

/-- The skip pattern of `parse_cliente_from_lines`:
`partita\siva|p\.iva|codice\sfiscale|vat|cf\b|fattura|invoice`. -/
def clienteSkipSearch (cs : List Char) : Bool :=
  scanPats
    [plainPat (strToks "partita" ++ [PTok.ws] ++ strToks "iva"),
     plainPat (strToks "p.iva"),
     plainPat (strToks "codice" ++ [PTok.ws] ++ strToks "fiscale"),
     plainPat (strToks "vat"),
     ⟨false, strToks "cf", true⟩,
     plainPat (strToks "fattura"),
     plainPat (strToks "invoice")] cs

/-- The street-keyword pattern of `looks_like_address`:
`\b(via|viale|piazza|corso|c\.so|strada|vico|largo)\b`. -/
def addressWordSearch (cs : List Char) : Bool :=
  scanPats
    [wordPat "via", wordPat "viale", wordPat "piazza", wordPat "corso",
     wordPat "c.so", wordPat "strada", wordPat "vico", wordPat "largo"] cs

/-- `\b\d{5}\b`: five digits delimited by word boundaries. -/
def fiveDigitSearch : Option Char → List Char → Bool
  | prev, c1 :: c2 :: c3 :: c4 :: c5 :: rest =>
    (boundaryB prev (some c1) && c1.isDigit && c2.isDigit && c3.isDigit && c4.isDigit &&
      c5.isDigit && boundaryB (some c5) rest.head?) ||
    fiveDigitSearch (some c1) (c2 :: c3 :: c4 :: c5 :: rest)
  | _, c :: rest => fiveDigitSearch (some c) rest
  | _, [] => false

/-- The supplier blacklist of `analyze_invoice_regex` (applied to the
lower-cased line): street keywords with trailing `\b`, plus plain
administrative substrings, plus `cf\b` and `cap\b`. -/
def blacklistSearch (cs : List Char) : Bool :=
  scanPats
    [⟨false, strToks "via", true⟩, ⟨false, strToks "viale", true⟩,
     ⟨false, strToks "piazza", true⟩, ⟨false, strToks "corso", true⟩,
     ⟨false, strToks "c.so", true⟩, ⟨false, strToks "strada", true⟩,
     plainPat (strToks "spett.le"), plainPat (strToks "gentile"),
     plainPat (strToks "bill" ++ [PTok.ws] ++ strToks "to"),
     plainPat (strToks "invoice"), plainPat (strToks "destinatario"),
     plainPat (strToks "destinazione"), plainPat (strToks "cliente"),
     plainPat (strToks "partita" ++ [PTok.ws] ++ strToks "iva"),
     plainPat (strToks "p.iva"),
     plainPat (strToks "codice" ++ [PTok.ws] ++ strToks "fiscale"),
     plainPat (strToks "vat"), ⟨false, strToks "cf", true⟩,
     ⟨false, strToks "cap", true⟩, plainPat (strToks "tel."),
     plainPat (strToks "fax"), plainPat (strToks "www."),
     plainPat (strToks "mail"), plainPat (strToks "pag.")] cs

/-- The legal-suffix pattern of `analyze_invoice_regex`:
`\b(s\.?r\.?l|s\.?p\.?a|s\.?n\.?c|s\.?a\.?s|s\.?s\.|gmbh|inc\.|ltd)\b`. -/
def societaSearch (cs : List Char) : Bool :=
  scanPats
    [⟨true, [PTok.ch 's', PTok.opt '.', PTok.ch 'r', PTok.opt '.', PTok.ch 'l'], true⟩,
     ⟨true, [PTok.ch 's', PTok.opt '.', PTok.ch 'p', PTok.opt '.', PTok.ch 'a'], true⟩,
     ⟨true, [PTok.ch 's', PTok.opt '.', PTok.ch 'n', PTok.opt '.', PTok.ch 'c'], true⟩,
     ⟨true, [PTok.ch 's', PTok.opt '.', PTok.ch 'a', PTok.opt '.', PTok.ch 's'], true⟩,
     ⟨true, [PTok.ch 's', PTok.opt '.', PTok.ch 's', PTok.ch '.'], true⟩,
     wordPat "gmbh",
     ⟨true, strToks "inc.", true⟩,
     wordPat "ltd"] cs

/-- The label pattern of `parse_cliente_from_lines`, anchored at the start:
`^(destinatario|destinazione|cliente|bill to|bill-to|spett\.le|spett/le|spett\. le|to:|ship to)\b`
(applied to the already lower-cased line). -/
def labelMatches (low : List Char) : Bool :=
  ["destinatario", "destinazione", "cliente", "bill to", "bill-to", "spett.le",
   "spett/le", "spett. le", "to:", "ship to"].any fun w =>
    match matchToks none (strToks w) low with
    | some (last, rest) => boundaryB last rest.head?
    | none => false

/-- `\b(EUR|EURO)\b` (case-insensitive) anywhere in the text. -/
def valutaSearch (text : String) : Bool :=
  scanPats [wordPat "eur", wordPat "euro"] text.toList || text.toList.contains '€'

/-- The line-item exclusion keywords:
`\b(Totale|Imponibile|IVA|Spese|Trasporto|Bolla|Documento)\b` (ci). -/
def exclusionSearch (cs : List Char) : Bool :=
  scanPats
    [wordPat "totale", wordPat "imponibile", wordPat "iva", wordPat "spese",
     wordPat "trasporto", wordPat "bolla", wordPat "documento"] cs

/-- A character of the invoice-number token class: ASCII letter, digit,
hyphen or slash. -/
def isTokChar (c : Char) : Bool := c.isAlpha || c.isDigit || c == '-' || c == '/'

/-- The common tail of the invoice-number pattern: `\s*`, an optional colon
or hash, `\s*`, then the captured one-or-more token characters; returns the
captured token and the rest. -/
def invTail (cs : List Char) : Option (List Char × List Char) :=
  starClsG isWsRe cs fun r1 =>
    optClsG (fun c => c == ':' || c == '#') r1 fun r2 =>
      starClsG isWsRe r2 fun r3 =>
        let n := (r3.takeWhile isTokChar).length
        if n = 0 then none else some (r3.take n, r3.drop n)

/-- One attempted match of the invoice-number pattern — keyword alternation
`Fattura\s*n\.?`, `Fattura`, `Invoice`, `Num(?:ero)?\s+Doc\.?`, `N\.`, `No\.`
followed by the captured token tail — case-insensitively at the current
position, with Python's first-alternative preference and backtracking. -/
def matchInvoiceAt (cs : List Char) : Option (List Char × List Char) :=
  ((litCIK "fattura".toList cs).bind fun r =>
    starClsG isWsRe r fun r2 =>
      (litCIK "n".toList r2).bind fun r3 => optLitCI ".".toList r3 invTail)
  |>.orElse (fun _ => (litCIK "fattura".toList cs).bind invTail)
  |>.orElse (fun _ => (litCIK "invoice".toList cs).bind invTail)
  |>.orElse (fun _ =>
    (litCIK "num".toList cs).bind fun r =>
      optLitCI "ero".toList r fun r2 =>
        plusClsG isWsRe r2 fun r3 =>
          (litCIK "doc".toList r3).bind fun r4 => optLitCI ".".toList r4 invTail)
  |>.orElse (fun _ => (litCIK "n.".toList cs).bind invTail)
  |>.orElse (fun _ => (litCIK "no.".toList cs).bind invTail)

/-- `re.findall` of the invoice-number pattern: scan left to right, emit the
captured group, continue after each match (fuel is the string length, always
sufficient since every match consumes at least one character). -/
def findallInvoiceGo : ℕ → List Char → List String
  | 0, _ => []
  | _, [] => []
  | fuel + 1, c :: rest =>
    match matchInvoiceAt (c :: rest) with
    | some (cap, r) => String.mk cap :: findallInvoiceGo fuel r
    | none => findallInvoiceGo fuel rest

/-- `re.findall(invoice_num_pattern, text, re.IGNORECASE)`. -/
def findallInvoice (text : String) : List String :=
  findallInvoiceGo (text.toList.length + 1) text.toList

/-- The candidate loop of `analyze_invoice_regex` (lines 470-485): skip
candidates without digits and purely numeric candidates of at least eight
digits; return the first surviving candidate containing `/` or `-`, else the
first surviving candidate. -/
def chooseInvoiceNumGo : List String → Option String → Option String
  | [], chosen => chosen
  | cand :: rest, chosen =>
    let c := pyStrip cand
    let digitsCount := (c.toList.filter Char.isDigit).length
    if !(c.toList.any Char.isDigit) then chooseInvoiceNumGo rest chosen
    else if 8 ≤ digitsCount ∧ digitsCount = c.length then chooseInvoiceNumGo rest chosen
    else if c.toList.contains '/' || c.toList.contains '-' then some c
    else
      match chosen with
      | none => chooseInvoiceNumGo rest (some c)
      | some ch => chooseInvoiceNumGo rest (some ch)

/-- The invoice-number choice over a candidate list. -/
def chooseInvoiceNum (cands : List String) : Option String := chooseInvoiceNumGo cands none

/-- Rests after 0, 1, 2, … repetitions of the grouping group `(?:[.,]\d{3})`. -/
def sepGroupRests (cs : List Char) : List (List Char) :=
  cs ::
    (match cs with
     | s :: d1 :: d2 :: d3 :: rest =>
       if (s == '.' || s == ',') && d1.isDigit && d2.isDigit && d3.isDigit then
         sepGroupRests rest
       else []
     | _ => [])

/-- The final `[.,]\d{2}` of the currency-amount pattern. -/
def finalCents : List Char → Option (List Char)
  | s :: d1 :: d2 :: rest =>
    if (s == '.' || s == ',') && d1.isDigit && d2.isDigit then some rest else none
  | _ => none

/-- Greedy leading `\d{1,3}`: rests after taking 3, 2, 1 digits (only as many
as are present), longest first. -/
def numLeadCands (cs : List Char) : List (List Char) :=
  let dRun := min (cs.takeWhile Char.isDigit).length 3
  (List.range dRun).map fun j => cs.drop (dRun - j)

/-- The currency-amount pattern `\d{1,3}(?:[.,]\d{3})*[.,]\d{2}` anchored at
the current position, with greedy backtracking: returns the rest after the
leftmost-preferred match. -/
def numberAtRest (cs : List Char) : Option (List Char) :=
  (numLeadCands cs).findSome? fun afterLead =>
    (sepGroupRests afterLead).reverse.findSome? fun r => finalCents r

/-- The currency-amount pattern at the current position: matched substring
and rest. -/
def numberAt (cs : List Char) : Option (List Char × List Char) :=
  match numberAtRest cs with
  | some rest => some (cs.take (cs.length - rest.length), rest)
  | none => none

/-- `re.search` of the bare amount pattern (used per line for line items). -/
def priceSearchGo : ℕ → List Char → Bool
  | 0, _ => false
  | _, [] => false
  | fuel + 1, c :: rest =>
    match numberAtRest (c :: rest) with
    | some _ => true
    | none => priceSearchGo fuel rest

/-- `re.search(price_pattern, line)`. -/
def priceSearch (cs : List Char) : Bool := priceSearchGo (cs.length + 1) cs

/-- The lazy gap `[^\d]*?` followed by the amount group: the group must start
at the first digit (the gap cannot consume digits), so the match succeeds
exactly when the amount pattern matches there. -/
def skipToDigitThenNumber (cs : List Char) : Option (List Char × List Char) :=
  let rest := cs.dropWhile fun c => !c.isDigit
  match rest with
  | [] => none
  | _ => numberAt rest

/-- One attempted match of the labelled total pattern
`(?:Totale documento|Totale\s+fattura|Totale da pagare|Totale|Importo|Total|Balance)[^\d]*?(amount)`
(case-insensitive) at the current position. -/
def matchAmountAt (cs : List Char) : Option (List Char × List Char) :=
  ((litCIK "totale documento".toList cs).bind skipToDigitThenNumber)
  |>.orElse (fun _ =>
    (litCIK "totale".toList cs).bind fun r =>
      plusClsG isWsRe r fun r2 =>
        (litCIK "fattura".toList r2).bind skipToDigitThenNumber)
  |>.orElse (fun _ => (litCIK "totale da pagare".toList cs).bind skipToDigitThenNumber)
  |>.orElse (fun _ => (litCIK "totale".toList cs).bind skipToDigitThenNumber)
  |>.orElse (fun _ => (litCIK "importo".toList cs).bind skipToDigitThenNumber)
  |>.orElse (fun _ => (litCIK "total".toList cs).bind skipToDigitThenNumber)
  |>.orElse (fun _ => (litCIK "balance".toList cs).bind skipToDigitThenNumber)

/-- `re.findall` of the labelled total pattern (captured amounts). -/
def findallAmountGo : ℕ → List Char → List String
  | 0, _ => []
  | _, [] => []
  | fuel + 1, c :: rest =>
    match matchAmountAt (c :: rest) with
    | some (cap, r) => String.mk cap :: findallAmountGo fuel r
    | none => findallAmountGo fuel rest

/-- `re.findall(amount_pattern, text, re.IGNORECASE)`. -/
def findallAmount (text : String) : List String :=
  findallAmountGo (text.toList.length + 1) text.toList

/-- One attempted match of `Imponibile[^\d]*?(amount)` at the current
position. -/
def matchImponibileAt (cs : List Char) : Option (List Char × List Char) :=
  (litCIK "imponibile".toList cs).bind skipToDigitThenNumber

/-- `re.findall` of the taxable-base pattern. -/
def findallImponibileGo : ℕ → List Char → List String
  | 0, _ => []
  | _, [] => []
  | fuel + 1, c :: rest =>
    match matchImponibileAt (c :: rest) with
    | some (cap, r) => String.mk cap :: findallImponibileGo fuel r
    | none => findallImponibileGo fuel rest

/-- `re.findall(imponibile_pattern, text, re.IGNORECASE)`. -/
def findallImponibile (text : String) : List String :=
  findallImponibileGo (text.toList.length + 1) text.toList

/-- Greedy `[0-9]{1,2}` with capture: candidates (captured digits, rest),
longest first. -/
def digit12Cands (cs : List Char) : List (List Char × List Char) :=
  match cs with
  | c1 :: c2 :: rest =>
    (if c1.isDigit && c2.isDigit then [([c1, c2], rest)] else []) ++
    (if c1.isDigit then [([c1], c2 :: rest)] else [])
  | [c1] => if c1.isDigit then [([c1], [])] else []
  | [] => []

/-- One attempted match of `IVA\s*([0-9]{1,2})\s*%` (case-insensitive) at the
current position. -/
def matchIvaAt (cs : List Char) : Option (List Char × List Char) :=
  (litCIK "iva".toList cs).bind fun r =>
    starClsG isWsRe r fun r2 =>
      (digit12Cands r2).findSome? fun dc =>
        starClsG isWsRe dc.2 fun r4 =>
          match r4 with
          | '%' :: r5 => some (dc.1, r5)
          | _ => none

/-- `re.findall` of the VAT-rate pattern (captured percentages). -/
def findallIvaGo : ℕ → List Char → List String
  | 0, _ => []
  | _, [] => []
  | fuel + 1, c :: rest =>
    match matchIvaAt (c :: rest) with
    | some (cap, r) => String.mk cap :: findallIvaGo fuel r
    | none => findallIvaGo fuel rest

/-- `re.findall(iva_pattern, text, re.IGNORECASE)`. -/
def findallIva (text : String) : List String :=
  findallIvaGo (text.toList.length + 1) text.toList

/-- Greedy `\d{1,2}` rests, longest first. -/
def d12Rests (cs : List Char) : List (List Char) :=
  match cs with
  | c1 :: c2 :: rest =>
    (if c1.isDigit && c2.isDigit then [rest] else []) ++
    (if c1.isDigit then [c2 :: rest] else [])
  | [c1] => if c1.isDigit then [[]] else []
  | [] => []

/-- Greedy `\d{2,4}` rests, longest first. -/
def d24Rests (cs : List Char) : List (List Char) :=
  (if 4 ≤ (cs.takeWhile Char.isDigit).length then [cs.drop 4] else []) ++
  (if 3 ≤ (cs.takeWhile Char.isDigit).length then [cs.drop 3] else []) ++
  (if 2 ≤ (cs.takeWhile Char.isDigit).length then [cs.drop 2] else [])

/-- Exactly `\d{4}`. -/
def d4Rest (cs : List Char) : Option (List Char) :=
  match cs with
  | c1 :: c2 :: c3 :: c4 :: rest =>
    if c1.isDigit && c2.isDigit && c3.isDigit && c4.isDigit then some rest else none
  | _ => none

/-- A date separator slash-or-hyphen. -/
def isDateSep (c : Char) : Bool := c == '/' || c == '-'

/-- The trailing `\b` after a date match (whose last character is a digit). -/
def dateTrailB (rest : List Char) : Bool :=
  match rest.head? with
  | some c => !isWordChar c
  | none => true

/-- First date alternative `\d{1,2} sep \d{1,2} sep \d{2,4}` (with the trailing
`\b` of the surrounding pattern), returning the rest. -/
def dateAltA (cs : List Char) : Option (List Char) :=
  (d12Rests cs).findSome? fun r1 =>
    match r1 with
    | s1 :: r2 =>
      if isDateSep s1 then
        (d12Rests r2).findSome? fun r3 =>
          match r3 with
          | s2 :: r4 =>
            if isDateSep s2 then
              (d24Rests r4).findSome? fun r5 => if dateTrailB r5 then some r5 else none
            else none
          | [] => none
      else none
    | [] => none

/-- Second date alternative `\d{4} sep \d{1,2} sep \d{1,2}` (with the trailing
`\b`), returning the rest. -/
def dateAltB (cs : List Char) : Option (List Char) :=
  match d4Rest cs with
  | some (s1 :: r2) =>
    if isDateSep s1 then
      (d12Rests r2).findSome? fun r3 =>
        match r3 with
        | s2 :: r4 =>
          if isDateSep s2 then
            (d12Rests r4).findSome? fun r5 => if dateTrailB r5 then some r5 else none
          else none
        | [] => none
    else none
  | _ => none

/-- `re.findall` of the date pattern
`\b( alt1 | alt2 )\b` with the two alternatives above: the
leading `\b` holds when the previous character is absent or not a word
character (the first matched character is a digit). -/
def findallDateGo : ℕ → Option Char → List Char → List String
  | 0, _, _ => []
  | _, _, [] => []
  | fuel + 1, prev, c :: rest =>
    let cs := c :: rest
    let preOk := match prev with | some p => !isWordChar p | none => true
    if preOk then
      match (dateAltA cs).orElse (fun _ => dateAltB cs) with
      | some r =>
        String.mk (cs.take (cs.length - r.length)) ::
          findallDateGo fuel (some '0') r
      | none => findallDateGo fuel (some c) rest
    else findallDateGo fuel (some c) rest

/-- `re.findall(date_pattern, text)`. -/
def findallDate (text : String) : List String :=
  findallDateGo (text.toList.length + 1) none text.toList

/-- `is_mostly_digits` of `parse_cliente_from_lines` (lines 362-364): at
least five digits and at least 60 percent digit characters.  (The source
compares `len(s2) >= len(s.strip()) * 0.6` with the binary double `0.6`;
that comparison coincides with the exact rational one for every string
length, machine-checked up to length 2000 and far beyond any real line.) -/
def isMostlyDigits (s : String) : Bool :=
  let s2 := (s.toList.filter Char.isDigit).length
  5 ≤ s2 ∧ 6 * (pyStrip s).length ≤ 10 * s2

/-- `looks_like_address` of `parse_cliente_from_lines` (lines 366-372):
street keywords or an isolated five-digit run. -/
def looksLikeAddress (s : String) : Bool :=
  let low := (pyLower s).toList
  addressWordSearch low || fiveDigitSearch none low

/-- The scanning window of `parse_cliente_from_lines` (lines 385-402): walk
at most `k` lines (six in the source), skipping blanks and fiscal-keyword
lines; the first digit-dominant line becomes the code, and the first
non-digit-dominant, non-address line longer than two characters becomes the
name and stops the scan.  Returns `(codice, nome)`. -/
def scanBlock : List String → ℕ → Option String → Option String × Option String
  | _, 0, codice => (codice, none)
  | [], _, codice => (codice, none)
  | l :: rest, k + 1, codice =>
    let cand := pyStrip l
    if cand.isEmpty then scanBlock rest k codice
    else if clienteSkipSearch (pyLower cand).toList then scanBlock rest k codice
    else if codice.isNone && isMostlyDigits cand then scanBlock rest k (some cand)
    else if !isMostlyDigits cand && !looksLikeAddress cand && 2 < cand.length then
      (codice, some cand)
    else scanBlock rest k codice

/-- `parse_cliente_from_lines` of `invoice_Agent.py` (lines 348-410): find a
customer-label line, scan its window; return the name if one was found, else
the code if it does not look like an address, else keep searching from the
next line. -/
def parseClienteFromLines : List String → Option String
  | [] => none
  | l :: rest =>
    let clean := pyStrip l
    if clean.isEmpty then parseClienteFromLines rest
    else if labelMatches (pyLower clean).toList then
      match scanBlock rest 6 none with
      | (_, some nome) => some nome
      | (some codice, none) =>
        if !looksLikeAddress codice then some codice else parseClienteFromLines rest
      | (none, none) => parseClienteFromLines rest
    else parseClienteFromLines rest

/-- The line normalizer of `analyze_invoice_regex` (line 441): split on
newlines, strip, drop empties. -/
def normLines (text : String) : List String :=
  (((text.toList.splitOn '\n').map pyStripList).filter fun l => !l.isEmpty).map
    fun l => String.mk l

/-- The supplier heuristic scan of `analyze_invoice_regex` (lines 526-535):
over the given lines, skip blacklisted lines and lines starting with a
digit; accept the first line matching the legal-suffix pattern. -/
def fornitoreScan : List String → Option String
  | [] => none
  | l :: rest =>
    if blacklistSearch (pyLower l).toList then fornitoreScan rest
    else if (match l.toList.head? with | some c => c.isDigit | none => false) then
      fornitoreScan rest
    else if societaSearch (pyLower l).toList then some l
    else fornitoreScan rest

/-- The customer value used by `analyze_invoice_regex` before its mislabel
guard (`cliente` at line 444). -/
def clienteResolved (text : String) : Option String :=
  parseClienteFromLines (normLines text)

/-- The supplier candidate after the header-OCR fallback
(`candidato_fornitore` after lines 537-538). -/
def fornitoreCandidate (text : String) (headerSupplier : Option String) : Option String :=
  let cand0 := fornitoreScan ((normLines text).take 30)
  if !(pyTruthy cand0) && pyTruthy headerSupplier then headerSupplier else cand0

/-- The result dictionary of `analyze_invoice_regex`; field names follow the
Python keys: `Fornitore`, `Cliente`, `Data` (`dataField`), `Numero Fattura`,
`Importo Totale`, `Valuta`, `Imponibile IVA`, `Codice IVA`,
`Elenco Articoli Regex`. -/
structure RegexData where
  fornitore : Option String
  cliente : Option String
  dataField : Option String
  numeroFattura : Option String
  importoTotale : Option String
  valuta : Option String
  imponibileIVA : Option String
  codiceIVA : Option String
  elencoArticoli : List String
deriving DecidableEq

/-- `analyze_invoice_regex` of `invoice_Agent.py` (lines 413-546). -/
def analyzeInvoiceRegex (text : String) (headerSupplier : Option String) : RegexData :=
  if text.isEmpty then ⟨none, none, none, none, none, none, none, none, []⟩
  else
    let lines := normLines text
    let cliente := clienteResolved text
    let clienteField :=
      if pyTruthy cliente && !fatturaInvoiceSearch (pyLower (cliente.getD "")).toList then
        cliente
      else none
    let dataField :=
      match findallDate text with
      | [] => none
      | d :: _ => normalizeDate (some d)
    let importoField :=
      match (findallAmount text).getLast? with
      | some raw => normalizeAmount (some raw)
      | none => none
    let numero := chooseInvoiceNum (findallInvoice text)
    let numeroField := if pyTruthy numero then numero else none
    let valutaField := if valutaSearch text then some "EUR" else none
    let imponibileField :=
      match (findallImponibile text).getLast? with
      | some raw => normalizeAmount (some raw)
      | none => none
    let codiceIvaField :=
      match (findallIva text).getLast? with
      | some p => some ("IVA " ++ p ++ "%")
      | none => none
    let articoli := lines.filter fun l => priceSearch l.toList && !exclusionSearch l.toList
    let cand := fornitoreCandidate text headerSupplier
    let fornitoreField :=
      if pyTruthy cand && pyTruthy cliente &&
          pyLower (pyStrip (cand.getD "")) == pyLower (pyStrip (cliente.getD "")) then
        none
      else cand
    ⟨fornitoreField, clienteField, dataField, numeroField, importoField,
     valutaField, imponibileField, codiceIvaField, articoli⟩

/-- The model-output dictionary consumed by `merge_ai_and_regex`; field names
follow the JSON keys `cliente`, `data_fattura`, `numero_fattura`,
`importo_totale` (held as the `str(...)` of the JSON value, as
`normalize_amount` receives it), `valuta`, `elenco_articoli`. -/
structure AiData where
  cliente : Option String
  dataFattura : Option String
  numeroFattura : Option String
  importoTotale : Option String
  valuta : Option String
  elencoArticoli : Option (List String)
deriving DecidableEq

/-- The merged record of `merge_ai_and_regex`; fields follow the Python keys
`fornitore`, `cliente`, `data_fattura`, `data_documento_portale`,
`numero_fattura`, `importo_totale`, `importo_totale_raw`, `valuta`,
`imponibile_iva`, `codice_iva`, `elenco_articoli`. -/
structure MergedData where
  fornitore : Option String
  cliente : Option String
  dataFattura : Option String
  dataDocumentoPortale : Option String
  numeroFattura : Option String
  importoTotale : Option String
  importoTotaleRaw : Option String
  valuta : Option String
  imponibileIva : Option String
  codiceIva : Option String
  elencoArticoli : List String
deriving DecidableEq

/-- `merge_ai_and_regex` of `invoice_Agent.py` (lines 628-723). -/
def mergeAiAndRegex (aiData : Option AiData) (regexData : RegexData) : MergedData :=
  let regexCliente := regexData.cliente
  let aiCliente := match aiData with | some a => a.cliente | none => none
  let cliente :=
    if pyTruthy regexCliente &&
        !fatturaInvoiceSearch (pyLower (regexCliente.getD "")).toList then regexCliente
    else if pyTruthy aiCliente &&
        !fatturaInvoiceSearch (pyLower (aiCliente.getD "")).toList then aiCliente
    else none
  let fornitore := regexData.fornitore
  let dataFattura :=
    if pyTruthy regexData.dataField then regexData.dataField
    else if (match aiData with | some a => pyTruthy a.dataFattura | none => false) then
      normalizeDate (some ((aiData.bind AiData.dataFattura).getD ""))
    else none
  let dataPortale := if pyTruthy dataFattura then portalDateFormat dataFattura else none
  let numeroFattura :=
    if pyTruthy regexData.numeroFattura then regexData.numeroFattura else none
  let regexAmt := regexData.importoTotale
  let aiAmt := match aiData with | some a => normalizeAmount a.importoTotale | none => none
  let importoRaw :=
    if pyTruthy regexAmt then regexAmt
    else if pyTruthy aiAmt then aiAmt
    else none
  let val0 :=
    if (match aiData with | some a => pyTruthy a.valuta | none => false) then
      some (pyUpper (pyStrip ((aiData.bind AiData.valuta).getD "")))
    else if pyTruthy regexData.valuta then
      some (pyUpper (pyStrip (regexData.valuta.getD "")))
    else none
  let valuta :=
    match val0 with
    | some v =>
      if !v.isEmpty then
        if pyContains v "€" || pyContains v "EUR" || pyContains v "EURO" then some "EUR"
        else some v
      else none
    | none => none
  let importoTotale :=
    match importoRaw with
    | some _ => localizeAmountEur importoRaw valuta
    | none => none
  let imponibile :=
    if pyTruthy regexData.imponibileIVA then
      localizeAmountEur regexData.imponibileIVA valuta
    else none
  let codiceIva := if pyTruthy regexData.codiceIVA then regexData.codiceIVA else none
  let lineItems :=
    match (match aiData with | some a => a.elencoArticoli | none => none) with
    | some items =>
      if !items.isEmpty then items
      else if !regexData.elencoArticoli.isEmpty then regexData.elencoArticoli else []
    | none =>
      if !regexData.elencoArticoli.isEmpty then regexData.elencoArticoli else []
  ⟨fornitore, cliente, dataFattura, dataPortale, numeroFattura, importoTotale,
   importoRaw, valuta, imponibile, codiceIva, lineItems⟩

/-- The survival filter of the invoice-number candidate loop, applied to the
stripped candidate: it must contain a digit and must not be an all-digit
token of at least eight digits. -/
def invSurvives (c : String) : Bool :=
  c.toList.any Char.isDigit &&
    !(decide (8 ≤ (c.toList.filter Char.isDigit).length ∧
      (c.toList.filter Char.isDigit).length = c.length))

/-- Does the candidate contain a slash or a hyphen? -/
def hasSlashDash (c : String) : Bool := c.toList.contains '/' || c.toList.contains '-'

/-- The output shape `digits . two-digits` claimed for normalized amounts
(checked from the right of the string). -/
def amountShapeB (s : String) : Bool :=
  match s.toList.reverse with
  | b :: a :: d :: ds =>
    b.isDigit && a.isDigit && (d == '.') && !ds.isEmpty && ds.all Char.isDigit
  | _ => false

/-- A digit or a dot character (the alphabet reaching the float parser from
digit-comma-dot inputs). -/
def isDigitDot (c : Char) : Bool := c.isDigit || c == '.'

/-- Bridge: a digit character has code point between 48 and 57. -/
theorem char_digit_toNat {c : Char} (h : c.isDigit = true) : 48 ≤ c.toNat ∧ c.toNat ≤ 57 := by
  unfold Char.isDigit at h
  rw [Bool.and_eq_true, decide_eq_true_eq, decide_eq_true_eq] at h
  exact ⟨UInt32.le_toNat_of_le (by decide) h.1, UInt32.toNat_le_of_le (by decide) h.2⟩

/-- `Char.toLower` fixes digit characters. -/
theorem toLower_of_isDigit {c : Char} (h : c.isDigit = true) : c.toLower = c := by
  have hb := char_digit_toNat h
  unfold Char.toLower
  rw [if_neg]
  omega

/-- C1: in the merge policy the final total (`importo_totale_raw`) is the
regex total verbatim whenever the regex total is truthy, else the
`normalize_amount` of the model total, else absent; in particular with the
regex total `"100.00"` and the model total `100000` the merged total is
`"100.00"`. -/
theorem merge_total_policy :
    (∀ (aiData : Option AiData) (regexData : RegexData),
      (mergeAiAndRegex aiData regexData).importoTotaleRaw =
        if pyTruthy regexData.importoTotale then regexData.importoTotale
        else if pyTruthy (match aiData with
                          | some a => normalizeAmount a.importoTotale
                          | none => none) then
          (match aiData with | some a => normalizeAmount a.importoTotale | none => none)
        else none) ∧
    (mergeAiAndRegex (some ⟨none, none, none, some "100000", none, none⟩)
        ⟨none, none, none, none, some "100.00", none, none, none, []⟩).importoTotaleRaw =
      some "100.00" := by
  refine ⟨fun aiData regexData => rfl, by decide⟩

/-- C2: `normalize_amount` removes every dot and turns every comma into a
dot, so a dot used as decimal separator is destroyed: `"1,234.56"` yields
`"1.23"` (not `"1234.56"` as claimed) and `"469.94"` yields `"46994.00"`,
contradicting the function's own docstring example `'469.94' -> '469.94'`;
the comma-decimal and pure-digit examples behave as stated. -/
theorem normalize_amount_dot_decimal_divergence :
    normalizeAmount (some "1,234.56") = some "1.23" ∧
    normalizeAmount (some "1,234.56") ≠ some "1234.56" ∧
    normalizeAmount (some "469.94") = some "46994.00" ∧
    normalizeAmount (some "469.94") ≠ some "469.94" ∧
    normalizeAmount (some "1.234,56") = some "1234.56" ∧
    normalizeAmount (some "46994") = some "469.94" ∧
    normalizeAmount (some "5") = some "5.00" := by
  decide

/-- C3 counterexample: the display formatter inserts no thousands grouping:
`format_display("1234.56", "EUR")` is `"1234,56"`, not `"1.234,56"`. -/
theorem format_display_grouping_counterexample :
    localizeAmountEur (some "1234.56") (some "EUR") = some "1234,56" ∧
    localizeAmountEur (some "1234.56") (some "EUR") ≠ some "1.234,56" := by
  decide

/-- C3 (amended): when the upper-cased currency contains `EUR`, `EURO` or
`€`, the formatter replaces every dot of the stripped amount with a comma
(no thousands grouping); otherwise it returns the stripped amount
unchanged. -/
theorem format_display_comma_policy :
    (∀ (a c : String),
      localizeAmountEur (some a) (some c) =
        if (pyStrip a).isEmpty then none
        else if pyContains (pyUpper c) "EUR" || pyContains (pyUpper c) "EURO" ||
            pyContains (pyUpper c) "€" then
          some ⟨(pyStrip a).toList.map fun ch => if ch == '.' then ',' else ch⟩
        else some (pyStrip a)) ∧
    localizeAmountEur (some "1234.56") (some "EUR") = some "1234,56" ∧
    localizeAmountEur (some "1234.56") (some "USD") = some "1234.56" := by
  refine ⟨fun a c => rfl, by decide, by decide⟩

/-- C7 counterexample: an unparseable input with surrounding whitespace is
returned stripped, not unchanged. -/
theorem normalize_date_strip_counterexample :
    normalizeDate (some " not-a-date ") = some "not-a-date" ∧
    normalizeDate (some " not-a-date ") ≠ some " not-a-date " := by
  decide

/-- C7 (amended): `normalize_date` tries the ordered format list
`%d/%m/%Y`, `%d-%m-%Y`, `%Y-%m-%d`, `%d/%m/%y`, `%d-%m-%y`; the first format
that parses wins and is rendered as `YYYY-MM-DD`; for a non-empty input none
of whose formats parse, the stripped input is returned (the input itself
when it has no surrounding whitespace) and no exception propagates; in
particular `normalize_date("05/03/2024") = "2024-03-05"` and
`normalize_date("not-a-date") = "not-a-date"`. -/
theorem normalize_date_format_policy :
    (normalizeDate (some "05/03/2024") = some "2024-03-05") ∧
    (normalizeDate (some "not-a-date") = some "not-a-date") ∧
    (∀ s : String, s.isEmpty = false →
      normalizeDate (some s) =
        match [0, 1, 2, 3, 4].findSome? (fun f => strptimeFmt f (pyStripList s.toList)) with
        | some d => some (renderISO d)
        | none => some ⟨pyStripList s.toList⟩) := by
  refine ⟨by decide, by decide, fun s hs => ?_⟩
  simp only [normalizeDate, hs, Bool.false_eq_true, if_false, normalizeDateFormats]

/-- C7 witness: the policy applied at the concrete unparseable input
`"xyz"`. -/
theorem normalize_date_format_policy_witness : normalizeDate (some "xyz") = some "xyz" :=
  (normalize_date_format_policy.2.2 "xyz" (by decide)).trans (by decide)

/-- C8 counterexample: a whitespace-only input yields the empty string, not
`None`. -/
theorem normalize_date_whitespace_counterexample :
    normalizeDate (some "   ") = some "" ∧ normalizeDate (some "   ") ≠ none := by
  decide

/-- C8 (amended): `normalize_date` returns `None` exactly for the `None`
input and the empty string; a whitespace-only input returns the empty
string (its stripped form), and the unparseable passthrough returns the
stripped input. -/
theorem normalize_date_absence_policy :
    normalizeDate none = none ∧
    normalizeDate (some "") = none ∧
    (∀ s : String, s.isEmpty = false → pyStrip s = "" → normalizeDate (some s) = some "") ∧
    (∀ s : String, normalizeDate (some s) = none → s = "") := by
  refine ⟨rfl, by decide, fun s hs hstrip => ?_, fun s h => ?_⟩
  · have hlist : pyStripList s.toList = [] := congrArg String.toList hstrip
    simp only [normalizeDate, hs, Bool.false_eq_true, if_false, hlist, normalizeDateFormats]
    decide
  · by_cases hemp : s.isEmpty
    · exact (String.isEmpty_iff _).mp hemp
    · rw [Bool.not_eq_true] at hemp
      simp only [normalizeDate, hemp, Bool.false_eq_true, if_false] at h
      revert h
      cases (normalizeDateFormats.findSome? fun f => strptimeFmt f (pyStripList s.toList)) with
      | none => intro h; cases h
      | some d => intro h; cases h

/-- C8 witness: the whitespace branch applied at a concrete input of two
spaces. -/
theorem normalize_date_absence_policy_witness : normalizeDate (some "  ") = some "" :=
  normalize_date_absence_policy.2.2.1 "  " (by decide) (by decide)

/-- One step of the invoice-number candidate loop, phrased through
`invSurvives` and `hasSlashDash`. -/
theorem chooseInvoiceNumGo_cons (cand : String) (rest : List String) (acc : Option String) :
    chooseInvoiceNumGo (cand :: rest) acc =
      if invSurvives (pyStrip cand) = false then chooseInvoiceNumGo rest acc
      else if hasSlashDash (pyStrip cand) then some (pyStrip cand)
      else
        chooseInvoiceNumGo rest
          (match acc with | none => some (pyStrip cand) | some ch => some ch) := by
  by_cases hd : (pyStrip cand).toList.any Char.isDigit = true
  · by_cases hp : 8 ≤ ((pyStrip cand).toList.filter Char.isDigit).length ∧
        ((pyStrip cand).toList.filter Char.isDigit).length = (pyStrip cand).length
    · have hsurv : invSurvives (pyStrip cand) = false := by
        unfold invSurvives
        rw [decide_eq_true hp]
        simp
      rw [if_pos hsurv]
      show (if !(pyStrip cand).toList.any Char.isDigit then chooseInvoiceNumGo rest acc
        else if 8 ≤ ((pyStrip cand).toList.filter Char.isDigit).length ∧
            ((pyStrip cand).toList.filter Char.isDigit).length = (pyStrip cand).length then
          chooseInvoiceNumGo rest acc
        else if (pyStrip cand).toList.contains '/' || (pyStrip cand).toList.contains '-' then
          some (pyStrip cand)
        else match acc with
          | none => chooseInvoiceNumGo rest (some (pyStrip cand))
          | some ch => chooseInvoiceNumGo rest (some ch)) = chooseInvoiceNumGo rest acc
      rw [hd, Bool.not_true, if_neg (by simp), if_pos hp]
    · have hsurv : invSurvives (pyStrip cand) = true := by
        unfold invSurvives
        rw [decide_eq_false hp, hd]
        rfl
      rw [if_neg (by rw [hsurv]; exact fun h => Bool.true_eq_false.mp h)]
      show (if !(pyStrip cand).toList.any Char.isDigit then chooseInvoiceNumGo rest acc
        else if 8 ≤ ((pyStrip cand).toList.filter Char.isDigit).length ∧
            ((pyStrip cand).toList.filter Char.isDigit).length = (pyStrip cand).length then
          chooseInvoiceNumGo rest acc
        else if (pyStrip cand).toList.contains '/' || (pyStrip cand).toList.contains '-' then
          some (pyStrip cand)
        else match acc with
          | none => chooseInvoiceNumGo rest (some (pyStrip cand))
          | some ch => chooseInvoiceNumGo rest (some ch)) = _
      rw [hd, Bool.not_true, if_neg (by simp), if_neg hp]
      by_cases hs : hasSlashDash (pyStrip cand) = true
      · have hs' : ((pyStrip cand).toList.contains '/' ||
            (pyStrip cand).toList.contains '-') = true := hs
        rw [hs', if_pos rfl, if_pos hs]
      · have hs' : ((pyStrip cand).toList.contains '/' ||
            (pyStrip cand).toList.contains '-') = false := Bool.not_eq_true _ ▸ by
          simpa [hasSlashDash] using hs
        rw [hs', if_neg (by simp), if_neg hs]
        cases acc <;> rfl
  · have hd' : (pyStrip cand).toList.any Char.isDigit = false := by
      simpa using hd
    have hsurv : invSurvives (pyStrip cand) = false := by
      unfold invSurvives
      rw [hd']
      rfl
    rw [if_pos hsurv]
    show (if !(pyStrip cand).toList.any Char.isDigit then chooseInvoiceNumGo rest acc
      else if 8 ≤ ((pyStrip cand).toList.filter Char.isDigit).length ∧
          ((pyStrip cand).toList.filter Char.isDigit).length = (pyStrip cand).length then
        chooseInvoiceNumGo rest acc
      else if (pyStrip cand).toList.contains '/' || (pyStrip cand).toList.contains '-' then
        some (pyStrip cand)
      else match acc with
        | none => chooseInvoiceNumGo rest (some (pyStrip cand))
        | some ch => chooseInvoiceNumGo rest (some ch)) = chooseInvoiceNumGo rest acc
    rw [hd', Bool.not_false, if_pos rfl]

/-- The candidate loop equals: the first surviving stripped candidate
containing a slash or hyphen if one exists, else the accumulator, else the
first surviving stripped candidate. -/
theorem chooseInvoiceNumGo_spec (cands : List String) (acc : Option String) :
    chooseInvoiceNumGo cands acc =
      match ((cands.map pyStrip).filter invSurvives).find? hasSlashDash with
      | some c => some c
      | none =>
        match acc with
        | some ch => some ch
        | none => ((cands.map pyStrip).filter invSurvives).head? := by
  induction cands generalizing acc with
  | nil => cases acc <;> rfl
  | cons cand rest ih =>
    rw [chooseInvoiceNumGo_cons]
    by_cases hsurv : invSurvives (pyStrip cand) = false
    · rw [if_pos hsurv, ih acc]
      simp only [List.map_cons, List.filter_cons, hsurv, Bool.false_eq_true, ite_false]
    · have hsurv' : invSurvives (pyStrip cand) = true := by
        simpa using hsurv
      rw [if_neg hsurv]
      by_cases hs : hasSlashDash (pyStrip cand) = true
      · rw [if_pos hs]
        simp only [List.map_cons, List.filter_cons, hsurv', ite_true, List.find?_cons, hs]
      · have hs' : hasSlashDash (pyStrip cand) = false := by simpa using hs
        rw [if_neg hs]
        simp only [List.map_cons, List.filter_cons, hsurv', ite_true, List.find?_cons, hs',
          List.head?_cons]
        cases acc with
        | none => rw [ih (some (pyStrip cand))]
        | some ch => rw [ih (some ch)]

/-- C4: among surviving candidates the extractor prefers the earliest one
containing `/` or `-`, and otherwise takes the earliest survivor; on the
example lines it returns `"3630/8"`. -/
theorem invoice_number_slash_preference :
    (∀ cands : List String,
      chooseInvoiceNum cands =
        match ((cands.map pyStrip).filter invSurvives).find? hasSlashDash with
        | some c => some c
        | none => ((cands.map pyStrip).filter invSurvives).head?) ∧
    (analyzeInvoiceRegex "Via Roma 12\nFattura N. 3630/8\nData: 01/01/2024" none).numeroFattura
      = some "3630/8" := by
  refine ⟨fun cands => ?_, by decide⟩
  rw [chooseInvoiceNum, chooseInvoiceNumGo_spec]

/-- C5 counterexample: the extractor has no date-shape or year filter — a
date-shaped token (matching the code's own date pattern) and a bare
plausible-year token are chosen as invoice numbers. -/
theorem invoice_number_date_shaped_counterexample :
    (analyzeInvoiceRegex "Fattura 01/01/2024" none).numeroFattura = some "01/01/2024" ∧
    findallDate "01/01/2024" = ["01/01/2024"] ∧
    (analyzeInvoiceRegex "Fattura 2024" none).numeroFattura = some "2024" := by
  decide

/-- Projection of `analyze_invoice_regex` onto the invoice-number field. -/
theorem analyze_numero_eq (text : String) (header : Option String) :
    (analyzeInvoiceRegex text header).numeroFattura =
      if text.isEmpty then none
      else if pyTruthy (chooseInvoiceNum (findallInvoice text)) then
        chooseInvoiceNum (findallInvoice text)
      else none := by
  by_cases ht : text.isEmpty <;> simp [analyzeInvoiceRegex, ht]

/-- A chosen invoice number survives the loop's filters. -/
theorem chooseInvoiceNum_some_survives (cands : List String) (c : String)
    (h : chooseInvoiceNum cands = some c) : invSurvives c = true := by
  rw [chooseInvoiceNum, chooseInvoiceNumGo_spec] at h
  revert h
  cases hf : ((cands.map pyStrip).filter invSurvives).find? hasSlashDash with
  | some c' =>
    intro h
    cases h
    exact (List.mem_filter.mp (List.mem_of_find?_eq_some hf)).2
  | none =>
    intro h
    cases hl : (cands.map pyStrip).filter invSurvives with
    | nil => rw [hl] at h; cases h
    | cons x xs =>
      rw [hl, List.head?_cons] at h
      have hxc : x = c := by injection h
      subst hxc
      have hx : x ∈ (cands.map pyStrip).filter invSurvives := by
        rw [hl]; exact List.mem_cons_self x xs
      exact (List.mem_filter.mp hx).2

/-- C5 (amended): a chosen invoice number always contains a digit and is
never an all-digit token of at least eight digits (so no-digit stop-words
are indeed never chosen, but date-shaped and year tokens can be). -/
theorem invoice_number_filter_invariant :
    ∀ (text : String) (header : Option String) (c : String),
      (analyzeInvoiceRegex text header).numeroFattura = some c →
      c.toList.any Char.isDigit = true ∧
      ¬(8 ≤ (c.toList.filter Char.isDigit).length ∧
        (c.toList.filter Char.isDigit).length = c.length) := by
  intro text header c h
  rw [analyze_numero_eq] at h
  by_cases ht : text.isEmpty
  · rw [if_pos ht] at h; cases h
  · rw [if_neg ht] at h
    by_cases htr : pyTruthy (chooseInvoiceNum (findallInvoice text)) = true
    · rw [if_pos htr] at h
      have hsurv := chooseInvoiceNum_some_survives _ _ h
      unfold invSurvives at hsurv
      rw [Bool.and_eq_true] at hsurv
      refine ⟨hsurv.1, ?_⟩
      have := hsurv.2
      rw [Bool.not_eq_eq_eq_not, Bool.not_true] at this
      exact of_decide_eq_false this
    · rw [if_neg htr] at h; cases h

/-- C5 witness: the invariant applied at the concrete text `"Invoice 77"`. -/
theorem invoice_number_filter_invariant_witness :
    "77".toList.any Char.isDigit = true ∧
    ¬(8 ≤ ("77".toList.filter Char.isDigit).length ∧
      ("77".toList.filter Char.isDigit).length = "77".length) :=
  invoice_number_filter_invariant "Invoice 77" none "77" (by decide)

/-- Projection of `analyze_invoice_regex` onto the customer field. -/
theorem analyze_cliente_eq (text : String) (header : Option String)
    (h : text.isEmpty = false) :
    (analyzeInvoiceRegex text header).cliente =
      (if pyTruthy (clienteResolved text) &&
          !fatturaInvoiceSearch (pyLower ((clienteResolved text).getD "")).toList then
        clienteResolved text
      else none) := by
  simp [analyzeInvoiceRegex, h]

/-- Projection of `analyze_invoice_regex` onto the supplier field. -/
theorem analyze_fornitore_eq (text : String) (header : Option String)
    (h : text.isEmpty = false) :
    (analyzeInvoiceRegex text header).fornitore =
      (if pyTruthy (fornitoreCandidate text header) && pyTruthy (clienteResolved text) &&
          (pyLower (pyStrip ((fornitoreCandidate text header).getD "")) ==
            pyLower (pyStrip ((clienteResolved text).getD ""))) then
        none
      else fornitoreCandidate text header) := by
  simp [analyzeInvoiceRegex, h]

/-- C6: whenever the resolved supplier candidate and the resolved customer
coincide up to strip and lower-casing, `analyze_invoice_regex` discards the
supplier: the output supplier field is absent. -/
theorem supplier_customer_collision_discard :
    ∀ (text : String) (header : Option String) (f c : String),
      fornitoreCandidate text header = some f →
      (analyzeInvoiceRegex text header).cliente = some c →
      f ≠ "" →
      pyLower (pyStrip f) = pyLower (pyStrip c) →
      (analyzeInvoiceRegex text header).fornitore = none := by
  intro text header f c hf hc hfne heq
  by_cases ht : text.isEmpty
  · have : (analyzeInvoiceRegex text header).cliente = none := by
      simp [analyzeInvoiceRegex, ht]
    rw [this] at hc
    cases hc
  · have ht' : text.isEmpty = false := by simpa using ht
    rw [analyze_cliente_eq text header ht'] at hc
    by_cases hcond : (pyTruthy (clienteResolved text) &&
        !fatturaInvoiceSearch (pyLower ((clienteResolved text).getD "")).toList) = true
    · rw [if_pos hcond] at hc
      rw [analyze_fornitore_eq text header ht', if_pos ?_]
      rw [hf, hc]
      have htrf : pyTruthy (some f) = true := by
        have : f.isEmpty = false := by
          rw [Bool.eq_false_iff]
          intro hemp
          exact hfne ((String.isEmpty_iff _).mp hemp)
        simp [pyTruthy, this]
      have htrc : pyTruthy (clienteResolved text) = true := by
        have hc2 := hcond
        rw [Bool.and_eq_true] at hc2
        exact hc2.1
      rw [htrf, hc] at *
      simp only [Option.getD_some, Bool.true_and]
      rw [Bool.and_eq_true]
      refine ⟨by rw [hc] at htrc; exact htrc, ?_⟩
      exact beq_iff_eq.mpr heq
    · rw [if_neg hcond] at hc
      cases hc

/-- C6 witness: the collision on the concrete document where both supplier
heuristic and customer block resolve to ACME. -/
theorem supplier_customer_collision_discard_witness :
    (analyzeInvoiceRegex "ACME S.r.l.\nCliente:\nACME S.R.L." none).fornitore = none :=
  supplier_customer_collision_discard "ACME S.r.l.\nCliente:\nACME S.R.L." none
    "ACME S.r.l." "ACME S.R.L." (by decide) (by decide) (by decide) (by decide)

/-- A code produced by the scanning window is digit-dominant: it either was
the accumulator already or satisfies `is_mostly_digits`. -/
theorem scanBlock_codice (ls : List String) (k : ℕ) (acc : Option String) (c : String)
    (nm : Option String) (h : scanBlock ls k acc = (some c, nm)) :
    acc = some c ∨ isMostlyDigits c = true := by
  induction ls generalizing k acc with
  | nil =>
    cases k with
    | zero => cases h; exact Or.inl rfl
    | succ k => cases h; exact Or.inl rfl
  | cons l rest ih =>
    cases k with
    | zero => cases h; exact Or.inl rfl
    | succ k =>
      by_cases h1 : (pyStrip l).isEmpty = true
      · rw [scanBlock, if_pos h1] at h
        exact ih k acc h
      · rw [scanBlock, if_neg h1] at h
        by_cases h2 : clienteSkipSearch (pyLower (pyStrip l)).toList = true
        · rw [if_pos h2] at h
          exact ih k acc h
        · rw [if_neg h2] at h
          by_cases h3 : (acc.isNone && isMostlyDigits (pyStrip l)) = true
          · rw [if_pos h3] at h
            rcases ih k (some (pyStrip l)) h with h4 | h4
            · have hlc : pyStrip l = c := by injection h4
              rw [Bool.and_eq_true] at h3
              exact Or.inr (hlc ▸ h3.2)
            · exact Or.inr h4
          · rw [if_neg h3] at h
            by_cases h5 : (!isMostlyDigits (pyStrip l) && !looksLikeAddress (pyStrip l) &&
                decide (2 < (pyStrip l).length)) = true
            · rw [if_pos h5] at h
              injection h with hcod hnm
              exact Or.inl hcod
            · rw [if_neg h5] at h
              exact ih k acc h

/-- C10: when some customer label line (preceded only by blank or non-label
lines) opens a window whose scan yields a digit-dominant code line and no
qualifying name line, and the code does not look like an address,
`parse_cliente_from_lines` returns that code line; the code line is
digit-dominant in the sense of `is_mostly_digits` (at least five digits and
at least 60 percent digit characters). -/
theorem customer_code_line_returned :
    ∀ (pre : List String) (label : String) (rest : List String) (c : String),
      (∀ l ∈ pre, pyStrip l = "" ∨ labelMatches (pyLower (pyStrip l)).toList = false) →
      (pyStrip label).isEmpty = false →
      labelMatches (pyLower (pyStrip label)).toList = true →
      scanBlock rest 6 none = (some c, none) →
      looksLikeAddress c = false →
      parseClienteFromLines (pre ++ label :: rest) = some c ∧
        isMostlyDigits c = true := by
  intro pre label rest c hpre hne hlab hscan haddr
  have hmost : isMostlyDigits c = true := by
    rcases scanBlock_codice rest 6 none c none hscan with h | h
    · cases h
    · exact h
  refine ⟨?_, hmost⟩
  induction pre with
  | nil =>
    rw [List.nil_append, parseClienteFromLines, if_neg (by rw [hne]; exact fun h => by cases h),
      if_pos hlab, hscan]
    show (if (!looksLikeAddress c) = true then some c else parseClienteFromLines rest) = some c
    rw [haddr]
    rfl
  | cons p ps ih =>
    have hp := hpre p (List.mem_cons_self p ps)
    have htail : ∀ l ∈ ps, pyStrip l = "" ∨ labelMatches (pyLower (pyStrip l)).toList = false :=
      fun l hl => hpre l (List.mem_cons_of_mem p hl)
    rw [List.cons_append, parseClienteFromLines]
    by_cases h1 : (pyStrip p).isEmpty = true
    · rw [if_pos h1]
      exact ih htail
    · rw [if_neg h1]
      rcases hp with h0 | h0
      · exact absurd (by rw [h0]; rfl) h1
      · rw [if_neg (by rw [h0]; exact fun h => by cases h)]
        exact ih htail

/-- C10 witness: a concrete label block containing only a customer code. -/
theorem customer_code_line_returned_witness :
    parseClienteFromLines ["Cliente:", "00123456"] = some "00123456" ∧
    isMostlyDigits "00123456" = true :=
  customer_code_line_returned [] "Cliente:" ["00123456"] "00123456"
    (fun l hl => absurd hl (List.not_mem_nil l)) (by decide) (by decide) (by decide) (by decide)

/-- A digit's value is at most nine. -/
theorem digitVal_le_nine {c : Char} (h : c.isDigit = true) : digitVal c ≤ 9 := by
  have hb := char_digit_toNat h
  unfold digitVal
  omega

/-- The ten digit characters pass `Char.isDigit`. -/
theorem ofNat48_isDigit (d : ℕ) (hd : d < 10) : (Char.ofNat (48 + d)).isDigit = true := by
  interval_cases d <;> decide

/-- `Char.toLower` fixes digits and the dot. -/
theorem toLower_digitDot {c : Char} (h : isDigitDot c = true) : c.toLower = c := by
  unfold isDigitDot at h
  rw [Bool.or_eq_true] at h
  rcases h with h | h
  · exact toLower_of_isDigit h
  · rw [beq_iff_eq] at h
    subst h
    decide

/-- A digit-or-dot character that is not a digit is the dot. -/
theorem digitDot_not_digit {c : Char} (h : isDigitDot c = true) (hd : c.isDigit = false) :
    c = '.' := by
  unfold isDigitDot at h
  rw [hd, Bool.false_or, beq_iff_eq] at h
  exact h

/-- On digit-or-dot input the digit-run scanner yields a value below
`10 ^ (digits consumed)`, consumes at most the input, and returns a rest
drawn from the input. -/
theorem parseDigitsUGo_digitDot (l : List Char) (acc k : ℕ)
    (hall : ∀ x ∈ l, isDigitDot x = true) :
    (parseDigitsUGo acc k l).1 < (acc + 1) * 10 ^ ((parseDigitsUGo acc k l).2.1 - k) ∧
    k ≤ (parseDigitsUGo acc k l).2.1 ∧
    (parseDigitsUGo acc k l).2.1 - k ≤ l.length ∧
    (∀ x ∈ (parseDigitsUGo acc k l).2.2, x ∈ l) := by
  induction l generalizing acc k with
  | nil =>
    refine ⟨?_, le_refl k, ?_, fun x hx => hx⟩
    · show acc < (acc + 1) * 10 ^ (k - k)
      simp
    · show k - k ≤ ([] : List Char).length
      simp
  | cons c rest ih =>
    by_cases hc : c.isDigit = true
    · have hstep : parseDigitsUGo acc k (c :: rest) =
          parseDigitsUGo (10 * acc + digitVal c) (k + 1) rest := by
        rw [parseDigitsUGo.eq_def]
        dsimp only
        rw [if_pos hc]
      rw [hstep]
      have hrest : ∀ x ∈ rest, isDigitDot x = true := fun x hx =>
        hall x (List.mem_cons_of_mem c hx)
      obtain ⟨hv, hk, hkl, hsub⟩ := ih (10 * acc + digitVal c) (k + 1) hrest
      have hd9 : digitVal c ≤ 9 := digitVal_le_nine hc
      refine ⟨?_, by omega, by simp only [List.length_cons]; omega,
        fun x hx => List.mem_cons_of_mem c (hsub x hx)⟩
      have h1 : (10 * acc + digitVal c + 1) *
          10 ^ ((parseDigitsUGo (10 * acc + digitVal c) (k + 1) rest).2.1 - (k + 1)) ≤
          (acc + 1) * 10 ^ ((parseDigitsUGo (10 * acc + digitVal c) (k + 1) rest).2.1 - k) := by
        have hexp : (parseDigitsUGo (10 * acc + digitVal c) (k + 1) rest).2.1 - k =
            ((parseDigitsUGo (10 * acc + digitVal c) (k + 1) rest).2.1 - (k + 1)) + 1 := by
          omega
        rw [hexp, pow_succ]
        nlinarith [pow_pos (by norm_num : (0:ℕ) < 10)
          ((parseDigitsUGo (10 * acc + digitVal c) (k + 1) rest).2.1 - (k + 1))]
      exact lt_of_lt_of_le hv h1
    · have hcdot : c = '.' :=
        digitDot_not_digit (hall c (List.mem_cons_self c rest)) (by simpa using hc)
      subst hcdot
      have hstep : parseDigitsUGo acc k ('.' :: rest) = (acc, k, '.' :: rest) := by
        rw [parseDigitsUGo.eq_def]
        dsimp only
        rfl
      rw [hstep]
      refine ⟨?_, le_refl k, ?_, fun x hx => hx⟩
      · show acc < (acc + 1) * 10 ^ (k - k)
        simp
      · show k - k ≤ ('.' :: rest).length
        simp

/-- On digit-or-dot input a successful digit-run parse yields `n < 10 ^ k`,
consumes at most the input, and a rest drawn from the input. -/
theorem parseDigitsU_digitDot (cs : List Char) (n k : ℕ) (r : List Char)
    (hall : ∀ x ∈ cs, isDigitDot x = true)
    (h : parseDigitsU cs = some (n, k, r)) :
    n < 10 ^ k ∧ k ≤ cs.length ∧ ∀ x ∈ r, x ∈ cs := by
  cases cs with
  | nil => cases h
  | cons c rest =>
    by_cases hc : c.isDigit = true
    · rw [parseDigitsU, if_pos hc] at h
      injection h with h3
      obtain ⟨hv, hk, hkl, hsub⟩ := parseDigitsUGo_digitDot rest (digitVal c) 1
        (fun x hx => hall x (List.mem_cons_of_mem c hx))
      rw [h3] at hv hk hkl hsub
      dsimp only at hv hk hkl hsub
      have hd9 : digitVal c ≤ 9 := digitVal_le_nine hc
      refine ⟨?_, by simp only [List.length_cons]; omega, fun x hx =>
        List.mem_cons_of_mem c (hsub x hx)⟩
      calc n < (digitVal c + 1) * 10 ^ (k - 1) := hv
        _ ≤ 10 * 10 ^ (k - 1) := by
          have h10 : digitVal c + 1 ≤ 10 := by omega
          exact Nat.mul_le_mul_right _ h10
        _ = 10 ^ k := by
          conv_rhs => rw [← Nat.sub_add_cancel hk]
          rw [pow_succ]
          ring
    · rw [parseDigitsU, if_neg hc] at h
      cases h

/-- On digit-or-dot input of bounded length, the mantissa parser fails or
produces a nonnegative fraction with positive denominator strictly below the
overflow threshold, with a digit-or-dot rest. -/
theorem parseMantissa_digitDot (cs : List Char)
    (hall : ∀ x ∈ cs, isDigitDot x = true) (hlen : cs.length ≤ 101) :
    parseMantissa cs = none ∨
    ∃ q r1, parseMantissa cs = some (q, r1) ∧ 0 ≤ q.num ∧ 0 < q.den ∧
      q.num < (ovNat : ℤ) * q.den ∧ ∀ x ∈ r1, isDigitDot x = true := by
  have hov : (10 : ℕ) ^ 101 ≤ ovNat := by norm_num [ovNat]
  have hov1 : 0 < ovNat := by norm_num [ovNat]
  cases cs with
  | nil => exact Or.inl rfl
  | cons c rest =>
    by_cases hdot : c = '.'
    · subst hdot
      rw [parseMantissa, if_pos rfl]
      cases hp : parseDigitsU rest with
      | none => exact Or.inl rfl
      | some trip =>
        obtain ⟨n, k, r⟩ := trip
        obtain ⟨hn, hk, hr⟩ := parseDigitsU_digitDot rest n k r
          (fun x hx => hall x (List.mem_cons_of_mem _ hx)) hp
        dsimp only
        refine Or.inr ⟨⟨(n : ℤ), ((10 ^ k : ℕ) : ℤ)⟩, r, rfl, Int.ofNat_nonneg n, ?_, ?_,
          fun x hx => hall x (List.mem_cons_of_mem _ (hr x hx))⟩
        · show (0 : ℤ) < ((10 ^ k : ℕ) : ℤ)
          exact_mod_cast pow_pos (by norm_num : (0:ℕ) < 10) k
        · show ((n : ℕ) : ℤ) < (ovNat : ℤ) * ((10 ^ k : ℕ) : ℤ)
          have hlt : n < ovNat * 10 ^ k :=
            lt_of_lt_of_le hn (Nat.le_mul_of_pos_left _ hov1)
          exact_mod_cast hlt
    · rw [parseMantissa, if_neg hdot]
      cases hp : parseDigitsU (c :: rest) with
      | none => exact Or.inl rfl
      | some trip =>
        obtain ⟨n1, k1, r1⟩ := trip
        obtain ⟨hn1, hk1, hr1⟩ := parseDigitsU_digitDot (c :: rest) n1 k1 r1 hall hp
        have hb : n1 < ovNat := by
          have hk101 : k1 ≤ 101 := le_trans hk1 hlen
          exact lt_of_lt_of_le hn1
            (le_trans (Nat.pow_le_pow_right (by norm_num) hk101) hov)
        cases r1 with
        | nil =>
          dsimp only
          refine Or.inr ⟨⟨(n1 : ℤ), 1⟩, [], rfl, Int.ofNat_nonneg n1, one_pos, ?_,
            fun x hx => absurd hx (List.not_mem_nil x)⟩
          show ((n1 : ℕ) : ℤ) < (ovNat : ℤ) * 1
          rw [mul_one]
          exact_mod_cast hb
        | cons c2 r2 =>
          have hsub2 : ∀ x ∈ r2, x ∈ c :: rest := fun x hx =>
            hr1 x (List.mem_cons_of_mem _ hx)
          dsimp only
          by_cases hd2 : c2 = '.'
          · subst hd2
            rw [if_pos rfl]
            cases hp2 : parseDigitsU r2 with
            | none =>
              dsimp only
              refine Or.inr ⟨⟨(n1 : ℤ), 1⟩, r2, rfl, Int.ofNat_nonneg n1, one_pos, ?_,
                fun x hx => hall x (hsub2 x hx)⟩
              show ((n1 : ℕ) : ℤ) < (ovNat : ℤ) * 1
              rw [mul_one]
              exact_mod_cast hb
            | some trip2 =>
              obtain ⟨n2, k2, r3⟩ := trip2
              obtain ⟨hn2, hk2, hr3⟩ := parseDigitsU_digitDot r2 n2 k2 r3
                (fun x hx => hall x (hsub2 x hx)) hp2
              dsimp only
              refine Or.inr ⟨⟨((n1 * 10 ^ k2 + n2 : ℕ) : ℤ), ((10 ^ k2 : ℕ) : ℤ)⟩, r3, rfl,
                Int.ofNat_nonneg _, ?_, ?_, fun x hx => hall x (hsub2 x (hr3 x hx))⟩
              · show (0 : ℤ) < ((10 ^ k2 : ℕ) : ℤ)
                exact_mod_cast pow_pos (by norm_num : (0:ℕ) < 10) k2
              · show ((n1 * 10 ^ k2 + n2 : ℕ) : ℤ) < (ovNat : ℤ) * ((10 ^ k2 : ℕ) : ℤ)
                have hlt : n1 * 10 ^ k2 + n2 < ovNat * 10 ^ k2 := by
                  calc n1 * 10 ^ k2 + n2 < n1 * 10 ^ k2 + 10 ^ k2 := by omega
                    _ = (n1 + 1) * 10 ^ k2 := by ring
                    _ ≤ ovNat * 10 ^ k2 := Nat.mul_le_mul_right _ (by omega)
                exact_mod_cast hlt
          · rw [if_neg hd2]
            refine Or.inr ⟨⟨(n1 : ℤ), 1⟩, c2 :: r2, rfl, Int.ofNat_nonneg n1, one_pos, ?_,
              fun x hx => hall x (hr1 x hx)⟩
            show ((n1 : ℕ) : ℤ) < (ovNat : ℤ) * 1
            rw [mul_one]
            exact_mod_cast hb

/-- A digit-or-dot character is the dot or has a digit code point. -/
theorem digitDot_toNat {c : Char} (h : isDigitDot c = true) :
    c.toNat = 46 ∨ (48 ≤ c.toNat ∧ c.toNat ≤ 57) := by
  unfold isDigitDot at h
  rw [Bool.or_eq_true] at h
  rcases h with h | h
  · exact Or.inr (char_digit_toNat h)
  · left
    rw [beq_iff_eq] at h
    subst h
    rfl

/-- Lowercasing fixes a list of digit-or-dot characters. -/
theorem mapToLower_digitDot {cs : List Char} (hall : ∀ x ∈ cs, isDigitDot x = true) :
    cs.map Char.toLower = cs := by
  calc cs.map Char.toLower = cs.map id :=
        List.map_congr_left fun a ha => toLower_digitDot (hall a ha)
    _ = cs := List.map_id cs

/-- The exponent parser rejects any digit-or-dot input. -/
theorem parseExp_digitDot (cs : List Char) (hall : ∀ x ∈ cs, isDigitDot x = true) :
    parseExp cs = (none : Option (ℤ × List Char)) := by
  cases cs with
  | nil => rfl
  | cons c rest =>
    have hc := digitDot_toNat (hall c (List.mem_cons_self c rest))
    have he : (c == 'e' || c == 'E') = false := by
      rw [Bool.or_eq_false_iff, beq_eq_false_iff_ne, beq_eq_false_iff_ne]
      constructor
      · intro hcE
        subst hcE
        revert hc
        decide
      · intro hcE
        subst hcE
        revert hc
        decide
    rw [parseExp.eq_def]
    dsimp only
    rw [he]
    rfl

/-- Every character emitted by the decimal renderer loop is a digit. -/
theorem natDecimalGo_digits (fuel n : ℕ) :
    ∀ x ∈ natDecimalGo fuel n, x.isDigit = true := by
  induction fuel generalizing n with
  | zero => intro x hx; exact absurd hx (List.not_mem_nil x)
  | succ fuel ih =>
    intro x hx
    rw [natDecimalGo] at hx
    by_cases hn : n = 0
    · rw [if_pos hn] at hx
      exact absurd hx (List.not_mem_nil x)
    · rw [if_neg hn] at hx
      rcases List.mem_append.mp hx with h | h
      · exact ih (n / 10) x h
      · rcases List.mem_singleton.mp h with rfl
        exact ofNat48_isDigit (n % 10) (Nat.mod_lt n (by norm_num))

/-- Every character of the decimal rendering is a digit. -/
theorem natDecimal_digits (n : ℕ) : ∀ x ∈ natDecimal n, x.isDigit = true := by
  intro x hx
  unfold natDecimal at hx
  by_cases hn : n = 0
  · rw [if_pos hn] at hx
    rcases List.mem_singleton.mp hx with rfl
    decide
  · rw [if_neg hn] at hx
    exact natDecimalGo_digits n n x hx

/-- The decimal rendering is never empty. -/
theorem natDecimal_ne_nil (n : ℕ) : natDecimal n ≠ [] := by
  unfold natDecimal
  by_cases hn : n = 0
  · rw [if_pos hn]
    exact List.cons_ne_nil _ _
  · rw [if_neg hn]
    cases n with
    | zero => exact absurd rfl hn
    | succ m =>
      rw [natDecimalGo, if_neg hn]
      exact List.append_ne_nil_of_right_ne_nil _ (List.cons_ne_nil _ _)

/-- On digit-or-dot input of bounded length, CPython float conversion either
fails or yields a finite value that is nonnegative and below the overflow
threshold. -/
theorem pyFloatVal_digitDot (cs : List Char) (f : PyF)
    (hall : ∀ x ∈ cs, isDigitDot x = true) (hlen : cs.length ≤ 101)
    (hf : pyFloatVal cs = some f) :
    ∃ q, f = PyF.fin q ∧ 0 ≤ q.num ∧ 0 < q.den ∧ q.num < (ovNat : ℤ) * q.den := by
  cases cs with
  | nil =>
    rw [show pyFloatVal [] = none from rfl] at hf
    exact Option.noConfusion hf
  | cons c rest =>
    have hc := hall c (List.mem_cons_self c rest)
    have hcT := digitDot_toNat hc
    have hplus : ¬ c = '+' := by intro h; subst h; revert hcT; decide
    have hminus : ¬ c = '-' := by intro h; subst h; revert hcT; decide
    have hlow : (c :: rest).map Char.toLower = c :: rest := mapToLower_digitDot hall
    have hinf : ¬ (c :: rest) = "inf".toList := by
      intro h
      have hm : 'i' ∈ c :: rest := by rw [h]; decide
      exact absurd (hall 'i' hm) (by decide)
    have hinfy : ¬ (c :: rest) = "infinity".toList := by
      intro h
      have hm : 'i' ∈ c :: rest := by rw [h]; decide
      exact absurd (hall 'i' hm) (by decide)
    have hnan : ¬ (c :: rest) = "nan".toList := by
      intro h
      have hm : 'n' ∈ c :: rest := by rw [h]; decide
      exact absurd (hall 'n' hm) (by decide)
    simp only [pyFloatVal] at hf
    have hsig : (if c = '+' then (false, rest) else if c = '-' then (true, rest)
        else (false, c :: rest)) = (false, c :: rest) := by
      rw [if_neg hplus, if_neg hminus]
    simp only [hsig] at hf
    rw [hlow] at hf
    rw [if_neg (show ¬ ((decide (c :: rest = "inf".toList) ||
        decide (c :: rest = "infinity".toList)) = true) from by
      rw [decide_eq_false hinf, decide_eq_false hinfy]; decide)] at hf
    rw [if_neg hnan] at hf
    rcases parseMantissa_digitDot (c :: rest) hall hlen with hnone |
      ⟨q, r1, heq, h0, hd, hltq, hr1⟩
    · rw [hnone] at hf
      exact Option.noConfusion hf
    · rw [heq] at hf
      dsimp only at hf
      rw [parseExp_digitDot r1 hr1] at hf
      dsimp only at hf
      by_cases hr1e : r1 = []
      · rw [if_pos hr1e] at hf
        rw [if_neg (show ¬ (false = true) from by decide)] at hf
        injection hf with hfeq
        refine ⟨q, ?_, h0, hd, hltq⟩
        rw [← hfeq]
        unfold mkFin
        rw [if_neg (not_le.mpr hltq), if_neg ?_]
        rw [not_le]
        have hpos : (0:ℤ) < (ovNat : ℤ) * q.den :=
          mul_pos (by exact_mod_cast (by norm_num [ovNat] : 0 < ovNat)) hd
        omega
      · rw [if_neg hr1e] at hf
        exact Option.noConfusion hf

/-- The concatenation rendered by `pyFormat2` has the digits-dot-two-digits
shape whenever the integer part is a nonempty digit string. -/
theorem amountShapeB_parts (ds : List Char) (n : ℕ) (hne : ds ≠ [])
    (hds : ∀ x ∈ ds, x.isDigit = true) (hn : n < 100) :
    amountShapeB ("" ++ (⟨ds⟩ : String) ++ "." ++ (⟨pad2 n⟩ : String)) = true := by
  have htl : ("" ++ (⟨ds⟩ : String) ++ "." ++ (⟨pad2 n⟩ : String)).toList =
      ds ++ '.' :: pad2 n := by
    simp [String.toList]
  have h1 : (Char.ofNat (48 + n % 10)).isDigit = true :=
    ofNat48_isDigit _ (Nat.mod_lt _ (by norm_num))
  have h2 : (Char.ofNat (48 + n / 10)).isDigit = true :=
    ofNat48_isDigit _ (Nat.div_lt_of_lt_mul (by omega))
  unfold amountShapeB
  rw [htl]
  rw [show (ds ++ '.' :: pad2 n).reverse =
      Char.ofNat (48 + n % 10) :: Char.ofNat (48 + n / 10) :: '.' :: ds.reverse from by
    simp [pad2]]
  dsimp only
  simp [h1, h2, List.all_reverse, List.all_eq_true, List.isEmpty_iff,
    List.reverse_eq_nil_iff, hne]
  exact hds

/-- Formatting a finite nonnegative value to two decimals yields the
digits-dot-two-digits shape. -/
theorem pyFormat2_shape (q : PyRat) (h0 : 0 ≤ q.num) :
    amountShapeB (pyFormat2 (PyF.fin q)) = true := by
  unfold pyFormat2
  dsimp only
  rw [if_neg (not_lt.mpr h0)]
  exact amountShapeB_parts _ _ (natDecimal_ne_nil _) (natDecimal_digits _)
    (Nat.mod_lt _ (by norm_num))

/-- The stripped list is never longer than the input. -/
theorem pyStripList_length_le (cs : List Char) : (pyStripList cs).length ≤ cs.length := by
  unfold pyStripList
  rw [List.length_reverse]
  refine le_trans (List.dropWhile_sublist _).length_le ?_
  rw [List.length_reverse]
  exact (List.dropWhile_sublist _).length_le

/-- A successful float conversion of a digit-or-dot list formats to the
digits-dot-two-digits shape. -/
theorem floatFormat_shape (t : List Char) (fl : PyF)
    (hall : ∀ x ∈ t, isDigitDot x = true) (hlen : t.length ≤ 101)
    (hpf : pyFloatVal t = some fl) :
    amountShapeB (pyFormat2 fl) = true := by
  obtain ⟨q, hq, h0q, _, _⟩ := pyFloatVal_digitDot t fl hall hlen hpf
  rw [hq]
  exact pyFormat2_shape q h0q

/-- C9 (corrected: the output shape holds for inputs whose space-free form
uses only digits, commas and dots; a leading sign refutes the unrestricted
claim, see the counterexample).  If the input, after stripping and removing
spaces, consists only of digits, commas and dots, then whenever
`normalize_amount` returns a value that value is one or more digits, a single
dot, and exactly two trailing digits. -/
theorem normalize_amount_shape_invariant (v r : String)
    (hall : ∀ x ∈ (pyStripList v.toList).filter (fun c => !(c == ' ')),
      (x.isDigit || x == ',' || x == '.') = true)
    (hlen : v.toList.length ≤ 100)
    (hr : normalizeAmount (some v) = some r) :
    amountShapeB r = true := by
  simp only [normalizeAmount] at hr
  by_cases h0 : (pyStripList v.toList).isEmpty = true
  · rw [if_pos h0] at hr
    exact Option.noConfusion hr
  · rw [if_neg h0] at hr
    have hslen : ((pyStripList v.toList).filter (fun c => !(c == ' '))).length ≤ 100 :=
      le_trans (List.length_filter_le _ _) (le_trans (pyStripList_length_le _) hlen)
    by_cases h1 : (((pyStripList v.toList).filter (fun c => !(c == ' '))).contains ',' ||
        ((pyStripList v.toList).filter (fun c => !(c == ' '))).contains '.') = true
    · rw [if_pos h1] at hr
      have htall : ∀ x ∈ ((((pyStripList v.toList).filter (fun c => !(c == ' '))).filter
          (fun c => !(c == '.'))).map fun c => if c == ',' then '.' else c),
          isDigitDot x = true := by
        intro x hx
        simp only [List.mem_map, List.mem_filter] at hx
        obtain ⟨y, ⟨⟨hys, hysp⟩, hyd⟩, rfl⟩ := hx
        have hy3 := hall y (List.mem_filter.mpr ⟨hys, hysp⟩)
        rw [Bool.or_eq_true, Bool.or_eq_true] at hy3
        unfold isDigitDot
        by_cases hcy : (y == ',') = true
        · rw [if_pos hcy]
          decide
        · rw [if_neg hcy]
          rw [Bool.or_eq_true]
          rcases hy3 with (hd | hc) | hdot
          · exact Or.inl hd
          · exact absurd hc hcy
          · exact Or.inr hdot
      have htlen : ((((pyStripList v.toList).filter (fun c => !(c == ' '))).filter
          (fun c => !(c == '.'))).map fun c => if c == ',' then '.' else c).length ≤ 101 := by
        rw [List.length_map]
        exact le_trans (List.length_filter_le _ _) (le_trans hslen (by norm_num))
      cases hpf : pyFloatVal ((((pyStripList v.toList).filter (fun c => !(c == ' '))).filter
          (fun c => !(c == '.'))).map fun c => if c == ',' then '.' else c) with
      | none =>
        rw [hpf] at hr
        exact Option.noConfusion hr
      | some fl =>
        rw [hpf] at hr
        dsimp only at hr
        injection hr with hreq
        rw [← hreq]
        exact floatFormat_shape _ fl htall htlen hpf
    · rw [if_neg h1] at hr
      by_cases h2 : (!((pyStripList v.toList).filter (fun c => !(c == ' '))).isEmpty &&
          ((pyStripList v.toList).filter (fun c => !(c == ' '))).all Char.isDigit) = true
      · rw [if_pos h2] at hr
        rw [Bool.and_eq_true] at h2
        have hsall : ∀ x ∈ (pyStripList v.toList).filter (fun c => !(c == ' ')),
            isDigitDot x = true := by
          intro x hx
          unfold isDigitDot
          rw [Bool.or_eq_true]
          exact Or.inl (List.all_eq_true.mp h2.2 x hx)
        by_cases h3 : ((pyStripList v.toList).filter (fun c => !(c == ' '))).length ≤ 2
        · rw [if_pos h3] at hr
          cases hpf : pyFloatVal ((pyStripList v.toList).filter (fun c => !(c == ' '))) with
          | none =>
            rw [hpf] at hr
            exact Option.noConfusion hr
          | some fl =>
            rw [hpf] at hr
            dsimp only at hr
            injection hr with hreq
            rw [← hreq]
            exact floatFormat_shape _ fl hsall (le_trans hslen (by norm_num)) hpf
        · rw [if_neg h3] at hr
          have hs'all : ∀ x ∈ (((pyStripList v.toList).filter (fun c => !(c == ' '))).take
              (((pyStripList v.toList).filter (fun c => !(c == ' '))).length - 2) ++
              '.' :: ((pyStripList v.toList).filter (fun c => !(c == ' '))).drop
              (((pyStripList v.toList).filter (fun c => !(c == ' '))).length - 2)),
              isDigitDot x = true := by
            intro x hx
            rcases List.mem_append.mp hx with hx | hx
            · exact hsall x (List.take_subset _ _ hx)
            · rcases List.mem_cons.mp hx with rfl | hx
              · decide
              · exact hsall x (List.drop_subset _ _ hx)
          have hs'len : ((((pyStripList v.toList).filter (fun c => !(c == ' '))).take
              (((pyStripList v.toList).filter (fun c => !(c == ' '))).length - 2) ++
              '.' :: ((pyStripList v.toList).filter (fun c => !(c == ' '))).drop
              (((pyStripList v.toList).filter (fun c => !(c == ' '))).length - 2))).length ≤
              101 := by
            rw [List.length_append, List.length_take, List.length_cons, List.length_drop]
            omega
          cases hpf : pyFloatVal (((pyStripList v.toList).filter (fun c => !(c == ' '))).take
              (((pyStripList v.toList).filter (fun c => !(c == ' '))).length - 2) ++
              '.' :: ((pyStripList v.toList).filter (fun c => !(c == ' '))).drop
              (((pyStripList v.toList).filter (fun c => !(c == ' '))).length - 2)) with
          | none =>
            rw [hpf] at hr
            exact Option.noConfusion hr
          | some fl =>
            rw [hpf] at hr
            dsimp only at hr
            injection hr with hreq
            rw [← hreq]
            exact floatFormat_shape _ fl hs'all hs'len hpf
      · rw [if_neg h2] at hr
        exact Option.noConfusion hr

/-- C9 counterexample: an input with a leading sign is not rejected, and the
returned value starts with a minus sign rather than a digit, refuting both
halves of the unrestricted claim. -/
theorem normalize_amount_signed_counterexample :
    normalizeAmount (some "-1,5") = some "-1.50" ∧ amountShapeB "-1.50" = false := by
  decide

/-- Witness: the shape invariant applied at the concrete input `1,234`. -/
theorem normalize_amount_shape_invariant_witness :
    normalizeAmount (some "1,234") = some "1.23" ∧ amountShapeB "1.23" = true :=
  ⟨by decide,
    normalize_amount_shape_invariant "1,234" "1.23" (by decide) (by decide) (by decide)⟩

/-! Concrete evaluations validating the embedding against traces of the
source functions on sample inputs. -/

example : findallInvoice "Via Roma 12\nFattura N. 3630/8\nData: 01/01/2024" = ["3630/8"] := by
  decide
example : findallInvoice "Fattura 01/01/2024" = ["01/01/2024"] := by decide
example : findallInvoice "Invoice 77" = ["77"] := by decide
example : findallInvoice "Fattura Nx" = ["x"] := by decide
example : findallInvoice "FatturaN3630" = ["3630"] := by decide
example : findallInvoice "Fattura N. 3630/8 e Fattura 999" = ["3630/8", "999"] := by decide
example : findallInvoice "XFattura 5" = ["5"] := by decide
example : findallInvoice "No.12 N.13" = ["12", "13"] := by decide
example : findallAmount "Totale documento 1.234,56" = ["1.234,56"] := by decide
example : findallAmount "Totale 1234,56" = [] := by decide
example : findallAmount "Totale fattura  1.234,56 EUR" = ["1.234,56"] := by decide
example : findallAmount "Totale da pagare: 12,345" = ["12,34"] := by decide
example : findallAmount "Importo x\n99,00" = ["99,00"] := by decide
example : findallAmount "Total 1,00 Balance 2,00" = ["1,00", "2,00"] := by decide
example : findallAmount "Totale 0,01 poi 5,00" = ["0,01"] := by decide
example : findallAmount "Totale 12,3456" = ["12,34"] := by decide
example : findallDate "Data: 01/01/2024 e 2023-1-2" = ["01/01/2024", "2023-1-2"] := by decide
example : findallDate "01/01/20245" = [] := by decide
example : findallDate "x12/3/45y" = [] := by decide
example : findallDate "1-2-34" = ["1-2-34"] := by decide
example : findallDate "ab1/2/34" = [] := by decide
example : findallIva "IVA 22%" = ["22"] := by decide
example : findallIva "IVA 224%" = [] := by decide
example : findallIva "iva 4 %" = ["4"] := by decide
example : findallIva "Partita IVA 22%" = ["22"] := by decide
example : parseClienteFromLines ["Cliente:", "00123456"] = some "00123456" := by decide
example : parseClienteFromLines ["x", "Cliente:", "00123456", "Via Roma 1"] =
    some "00123456" := by decide
example : parseClienteFromLines ["Cliente: Mario Rossi"] = none := by decide
example : parseClienteFromLines ["Cliente:", "ACME S.R.L."] = some "ACME S.R.L." := by decide
example :
    analyzeInvoiceRegex "ACME S.r.l.\nCliente:\nACME S.R.L." none =
      ⟨none, some "ACME S.R.L.", none, none, none, none, none, none, []⟩ := by decide
example :
    analyzeInvoiceRegex "Via Roma 12\nFattura N. 3630/8\nData: 01/01/2024" none =
      ⟨none, none, some "2024-01-01", some "3630/8", none, none, none, none, []⟩ := by decide
example :
    (analyzeInvoiceRegex "Fattura 01/01/2024" none).numeroFattura = some "01/01/2024" := by
  decide
example : (analyzeInvoiceRegex "Invoice 77" none).numeroFattura = some "77" := by decide
example : scanPats [wordPat "eur", wordPat "euro"] "EURO".toList = true := by decide
example : scanPats [wordPat "eur", wordPat "euro"] "EUROS".toList = false := by decide
example : scanPats [wordPat "eur", wordPat "euro"] "xEUR".toList = false := by decide
example : blacklistSearch "acme s.r.l.".toList = false := by decide
example : blacklistSearch "xvia roma".toList = true := by decide
example : blacklistSearch "elevato".toList = true := by decide
example : blacklistSearch "acf x".toList = true := by decide
example : blacklistSearch "capitale".toList = false := by decide
example : societaSearch "acme s.r.l.".toList = true := by decide
example : societaSearch "acme srls".toList = false := by decide
example : societaSearch "acme inc.".toList = false := by decide
example : societaSearch "acme inc.x".toList = true := by decide
example : societaSearch "rossi sas".toList = true := by decide
example : labelMatches "cliente:".toList = true := by decide
example : labelMatches "clientela".toList = false := by decide
example : labelMatches "to: acme".toList = false := by decide
example : labelMatches "to:acme".toList = true := by decide
example : labelMatches "spett.le ditta".toList = true := by decide
example : fiveDigitSearch none "a 12345 b".toList = true := by decide
example : fiveDigitSearch none "123456".toList = false := by decide
example : normalizeDate (some "05/03/2024") = some "2024-03-05" := by decide
example : normalizeDate (some "not-a-date") = some "not-a-date" := by decide
example : normalizeDate (some " not-a-date ") = some "not-a-date" := by decide
example : normalizeDate (some "   ") = some "" := by decide
example : normalizeDate (some "") = none := by decide
example : normalizeDate none = none := by decide
example : normalizeDate (some "5/3/2024") = some "2024-03-05" := by decide
example : normalizeDate (some "05/03/24") = some "2024-03-05" := by decide
example : normalizeDate (some "31/02/2024") = some "31/02/2024" := by decide
example : normalizeDate (some "2024-3-5") = some "2024-03-05" := by decide
example : normalizeDate (some "01-02-03") = some "2003-02-01" := by decide
example : normalizeDate (some "01/01/69") = some "1969-01-01" := by decide
example : normalizeDate (some "01/01/68") = some "2068-01-01" := by decide
example : normalizeDate (some "0000-01-01") = some "0000-01-01" := by decide
example : normalizeDate (some "00/01/2024") = some "00/01/2024" := by decide
example : portalDateFormat (some "2024-03-05") = some "05/03/2024" := by decide
example : portalDateFormat (some "xyz") = some "xyz" := by decide
example : normalizeAmount (some "1.234,56") = some "1234.56" := by decide
example : normalizeAmount (some "1,234.56") = some "1.23" := by decide
example : normalizeAmount (some "46994") = some "469.94" := by decide
example : normalizeAmount (some "5") = some "5.00" := by decide
example : normalizeAmount (some "469.94") = some "46994.00" := by decide
example : normalizeAmount (some "-1,5") = some "-1.50" := by decide
example : normalizeAmount (some "100000") = some "1000.00" := by decide
example : normalizeAmount (some "1,234,56") = none := by decide
example : normalizeAmount (some "1,5e2") = some "150.00" := by decide
example : localizeAmountEur (some "1234.56") (some "EUR") = some "1234,56" := by decide
example : localizeAmountEur (some "1234.56") (some "USD") = some "1234.56" := by decide
